import Mathlib

set_option linter.unnecessarySeqFocus false

/-!
Verification model of the libcpdlc core: the client-side message-list
(thread) engine of src/src/cpdlc_msglist.c and the routing daemon of
src/cpdlcd/cpdlcd.c.  Definitions are shallow embeddings of the C
functions, keeping the source names where Lean allows.
-/

/-- Catalog response class of a message segment (cpdlc_resp_t of the
catalog header, which is not under src/; the five classes are listed in
the spec, section 3.1). -/
inductive RespClass where
  | N
  | Y
  | WU
  | AN
  | NE
deriving DecidableEq

/-- Catalog entry for one message type: cpdlc_msg_info_t fields used by
the engine (msg_type, is_dl, resp, timeout). -/
structure SegInfo where
  msg_type : Nat
  is_dl : Bool
  resp : RespClass
  timeout : Nat
deriving DecidableEq

/-- One message segment: its catalog info plus its first argument (the
only argument the modelled code reads or writes). -/
structure Seg where
  info : SegInfo
  arg0 : String
deriving DecidableEq

/-- A CPDLC message.  MIN and MRN are optional sequence numbers
(CPDLC_INVALID_MSG_SEQ_NR is modelled as none).  A message always has at
least one segment (seg0), matching the code's ASSERT(segs[0].info). -/
structure Msg where
  seg0 : Seg
  segs_rest : List Seg
  min : Option Nat
  mrn : Option Nat
  from_cs : String
  to_cs : String
  is_logon : Bool
deriving DecidableEq

/-- All segments of a message, in order. -/
def Msg.segs (m : Msg) : List Seg := m.seg0 :: m.segs_rest

/-- cpdlc_msg_get_dl: direction of a message (true = downlink). -/
def cpdlc_msg_get_dl (m : Msg) : Bool := m.seg0.info.is_dl

/-- Modelled from the spec: the message-type enum values live in the
cpdlc.h header, which is not under src/.  The uplink (UM) and downlink
(DM) enums are separate C enums whose values are the standard CPDLC
message numbers carried in the identifiers themselves (DM62, UM159, ...),
so UM and DM codes share one numeric space, exactly as in the C source
where every predicate pairs a msg_type test with an is_dl test. -/
def CPDLC_DM0_WILCO : Nat := 0

def CPDLC_DM1_UNABLE : Nat := 1

def CPDLC_DM2_STANDBY : Nat := 2

def CPDLC_DM3_ROGER : Nat := 3

def CPDLC_DM4_AFFIRM : Nat := 4

def CPDLC_DM5_NEGATIVE : Nat := 5

def CPDLC_DM6_REQ_alt : Nat := 6

def CPDLC_DM27_REQ_WX_DEVIATION_UP_TO_dir_dist_OF_ROUTE : Nat := 27

def CPDLC_DM49_WHEN_CAN_WE_EXPCT_spd : Nat := 49

def CPDLC_DM54_WHEN_CAN_WE_EXPECT_CRZ_CLB_TO_alt : Nat := 54

def CPDLC_DM62_ERROR_errorinfo : Nat := 62

def CPDLC_DM70_REQ_HDG_deg : Nat := 70

def CPDLC_DM71_REQ_GND_TRK_deg : Nat := 71

def CPDLC_UM0_UNABLE : Nat := 0

def CPDLC_UM1_STANDBY : Nat := 1

def CPDLC_UM3_ROGER : Nat := 3

def CPDLC_UM4_AFFIRM : Nat := 4

def CPDLC_UM5_NEGATIVE : Nat := 5

def CPDLC_UM159_ERROR_description : Nat := 159

def CPDLC_UM160_NEXT_DATA_AUTHORITY_id : Nat := 160

def CPDLC_UM161_END_SVC : Nat := 161

def CPDLC_UM168_DISREGARD : Nat := 168

/-- msg_is_dl_req of cpdlc_msglist.c: downlink-request message types
(ranges DM6..DM27, DM49..DM54, and DM70/DM71). -/
def msg_is_dl_req (m : Msg) : Bool :=
  (decide (CPDLC_DM6_REQ_alt ≤ m.seg0.info.msg_type) &&
   decide (m.seg0.info.msg_type ≤ CPDLC_DM27_REQ_WX_DEVIATION_UP_TO_dir_dist_OF_ROUTE)) ||
  (decide (CPDLC_DM49_WHEN_CAN_WE_EXPCT_spd ≤ m.seg0.info.msg_type) &&
   decide (m.seg0.info.msg_type ≤ CPDLC_DM54_WHEN_CAN_WE_EXPECT_CRZ_CLB_TO_alt)) ||
  m.seg0.info.msg_type == CPDLC_DM70_REQ_HDG_deg ||
  m.seg0.info.msg_type == CPDLC_DM71_REQ_GND_TRK_deg

/-- msg_dl_req_resp: the first segment's response class is Y. -/
def msg_dl_req_resp (m : Msg) : Bool := m.seg0.info.resp == RespClass.Y

/-- msg_is_ul_req: the first segment's response class is WU, AN or NE. -/
def msg_is_ul_req (m : Msg) : Bool :=
  m.seg0.info.resp == RespClass.WU || m.seg0.info.resp == RespClass.AN ||
  m.seg0.info.resp == RespClass.NE

/-- msg_is_stby: DM2 STANDBY (downlink) or UM1 STANDBY (uplink). -/
def msg_is_stby (m : Msg) : Bool :=
  (m.seg0.info.is_dl && m.seg0.info.msg_type == CPDLC_DM2_STANDBY) ||
  (!m.seg0.info.is_dl && m.seg0.info.msg_type == CPDLC_UM1_STANDBY)

/-- msg_is_accept: DM0 WILCO / DM4 AFFIRM (downlink) or UM4 AFFIRM. -/
def msg_is_accept (m : Msg) : Bool :=
  (m.seg0.info.is_dl &&
   (m.seg0.info.msg_type == CPDLC_DM0_WILCO ||
    m.seg0.info.msg_type == CPDLC_DM4_AFFIRM)) ||
  (!m.seg0.info.is_dl && m.seg0.info.msg_type == CPDLC_UM4_AFFIRM)

/-- msg_is_reject: DM1 UNABLE / DM5 NEGATIVE / DM62 ERROR (downlink) or
UM0 UNABLE / UM5 NEGATIVE / UM159 ERROR (uplink). -/
def msg_is_reject (m : Msg) : Bool :=
  (m.seg0.info.is_dl &&
   (m.seg0.info.msg_type == CPDLC_DM1_UNABLE ||
    m.seg0.info.msg_type == CPDLC_DM5_NEGATIVE ||
    m.seg0.info.msg_type == CPDLC_DM62_ERROR_errorinfo)) ||
  (!m.seg0.info.is_dl &&
   (m.seg0.info.msg_type == CPDLC_UM0_UNABLE ||
    m.seg0.info.msg_type == CPDLC_UM5_NEGATIVE ||
    m.seg0.info.msg_type == CPDLC_UM159_ERROR_description))

/-- is_error_msg: DM62 ERROR (downlink) or UM159 ERROR (uplink). -/
def is_error_msg (m : Msg) : Bool :=
  (m.seg0.info.is_dl && m.seg0.info.msg_type == CPDLC_DM62_ERROR_errorinfo) ||
  (!m.seg0.info.is_dl && m.seg0.info.msg_type == CPDLC_UM159_ERROR_description)

/-- msg_is_rgr: DM3 ROGER (downlink) or UM3 ROGER (uplink). -/
def msg_is_rgr (m : Msg) : Bool :=
  (m.seg0.info.is_dl && m.seg0.info.msg_type == CPDLC_DM3_ROGER) ||
  (!m.seg0.info.is_dl && m.seg0.info.msg_type == CPDLC_UM3_ROGER)

/-- msg_is_link_mgmt: uplink UM161 END SERVICE or UM160 NEXT DATA
AUTHORITY. -/
def msg_is_link_mgmt (m : Msg) : Bool :=
  !m.seg0.info.is_dl &&
  (m.seg0.info.msg_type == CPDLC_UM161_END_SVC ||
   m.seg0.info.msg_type == CPDLC_UM160_NEXT_DATA_AUTHORITY_id)

/-- is_disregard_msg: uplink UM168 DISREGARD. -/
def is_disregard_msg (m : Msg) : Bool :=
  !m.seg0.info.is_dl && m.seg0.info.msg_type == CPDLC_UM168_DISREGARD

/-- Thread status enumeration (cpdlc_msg_thr_status_t; values as listed
in the spec, section 4.2, OPEN first matching the calloc zero value). -/
inductive ThrStatus where
  | OPEN
  | PENDING
  | STANDBY
  | ACCEPTED
  | REJECTED
  | TIMEDOUT
  | DISREGARD
  | ERROR
  | CLOSED
  | FAILED
  | CONN_ENDED
deriving DecidableEq

/-- thr_status_is_final of cpdlc_msglist.c. -/
def thr_status_is_final (st : ThrStatus) : Bool :=
  st == ThrStatus.CLOSED || st == ThrStatus.ACCEPTED ||
  st == ThrStatus.REJECTED || st == ThrStatus.TIMEDOUT ||
  st == ThrStatus.DISREGARD || st == ThrStatus.FAILED ||
  st == ThrStatus.ERROR || st == ThrStatus.CONN_ENDED

/-- Transport-side status of a sent message (cpdlc_msg_status_t of the
client header; the statuses other than SENDING and SEND_FAILED all take
the default branch in thr_status_upd and are collapsed into SENT). -/
inductive ClMsgStatus where
  | SENDING
  | SEND_FAILED
  | SENT
deriving DecidableEq

/-- Client logon status; thr_status_upd only tests for COMPLETE. -/
inductive LogonStatus where
  | COMPLETE
  | OFFLINE
deriving DecidableEq

/-- msg_bucket_t: one message in a thread plus local metadata. -/
structure MsgBucket where
  msg : Msg
  tok : Nat
  sent : Bool
  hours : Nat
  mins : Nat
  time : Nat
deriving DecidableEq

/-- msg_thr_t: a message thread.  buckets is in C list order, head
(oldest) first. -/
structure MsgThr where
  thr_id : Nat
  status : ThrStatus
  buckets : List MsgBucket
  dirty : Bool
deriving DecidableEq

/-- cpdlc_msglist_s: the engine state.  thr is in C list order, head
first; find_msg_thr inserts new threads at the head, so the head is the
newest thread.  min is the engine-wide MIN counter. -/
structure Msglist where
  thr : List MsgThr
  min : Nat
  next_thr_id : Nat
deriving DecidableEq

/-- External environment of one engine operation: wall-clock time,
display clock, the token the transport returns for a send, the
transport's per-token message status and the logon status. -/
structure Env where
  now : Nat
  hours : Nat
  mins : Nat
  tok : Nat
  msg_status : Nat → ClMsgStatus
  logon : LogonStatus

def CPDLC_INVALID_MSG_TOKEN : Nat := 4294967295

def UINT32_MAX : Nat := 4294967295

def dummy_thr : MsgThr :=
  { thr_id := 0, status := ThrStatus.OPEN, buckets := [], dirty := false }

/-- thr_get_timeout: minimum non-zero catalog timeout over all segments
of all buckets, 0 if none (UINT32_MAX is the sentinel in C). -/
def thr_get_timeout (thr : MsgThr) : Nat :=
  let t := thr.buckets.foldl
    (fun acc b => b.msg.segs.foldl
      (fun a s => if s.info.timeout ≠ 0 ∧ s.info.timeout < a then s.info.timeout else a) acc)
    UINT32_MAX
  if t < UINT32_MAX then t else 0

/-- List helper: index (from the head) of the first element satisfying
p (the element a C walk from list_head via list_next finds first). -/
def findFirstIdx {α : Type} (p : α → Bool) : List α → Option Nat
  | [] => none
  | x :: xs => if p x then some 0 else (findFirstIdx p xs).map (fun i => i + 1)

/-- List helper: replace the element at an index (C code mutates one
list node in place; out-of-range is the identity). -/
def modifyIdx {α : Type} (f : α → α) : Nat → List α → List α
  | _, [] => []
  | 0, x :: xs => f x :: xs
  | n + 1, x :: xs => x :: modifyIdx f n xs

/-- List helper: element at an index, with an explicit default. -/
def getIdx {α : Type} (d : α) : Nat → List α → α
  | _, [] => d
  | 0, x :: _ => x
  | n + 1, _ :: xs => getIdx d n xs

/-- List helper: index (from the head) of the LAST element satisfying p.
This is the element a C walk from list_tail via list_prev finds first. -/
def findLastIdx {α : Type} (p : α → Bool) : List α → Option Nat
  | [] => none
  | x :: xs =>
    match findLastIdx p xs with
    | some i => some (i + 1)
    | none => if p x then some 0 else none

/-- List helper: apply f to the first element satisfying p (the element
a C walk from list_head via list_next finds first); identity if none. -/
def modifyFirst {α : Type} (p : α → Bool) (f : α → α) : List α → List α
  | [] => []
  | x :: xs => if p x then f x :: xs else x :: modifyFirst p f xs

/-- List helper: remove the first element satisfying p; identity if
none. -/
def removeFirst {α : Type} (p : α → Bool) : List α → List α
  | [] => []
  | x :: xs => if p x then xs else x :: removeFirst p xs

/-- msg_matches_bucket of cpdlc_msglist.c: a DISREGARD matches a
received (not-sent) bucket, any other message matches a sent bucket,
in both cases with bucket MIN equal to the incoming MRN. -/
def msg_matches_bucket (msg : Msg) (bucket : MsgBucket) : Bool :=
  if is_disregard_msg msg then !bucket.sent && bucket.msg.min == msg.mrn
  else bucket.sent && bucket.msg.min == msg.mrn

/-- One thread as scanned by msg_thr_find_by_mrn: manually closed
threads (status CLOSED, and only those) are skipped, and some bucket
must match. -/
def thr_matches_mrn (msg : Msg) (thr : MsgThr) : Bool :=
  !(thr.status == ThrStatus.CLOSED) && thr.buckets.any (msg_matches_bucket msg)

/-- msg_thr_find_by_mrn of cpdlc_msglist.c, as the index of the found
thread: the C walk runs from list_tail via list_prev, i.e. it finds the
LAST matching thread in head-first list order; none when the incoming
MRN is absent or nothing matches. -/
def find_by_mrn_idx (thrs : List MsgThr) (msg : Msg) : Option Nat :=
  if msg.mrn = none then none
  else findLastIdx (thr_matches_mrn msg) thrs

/-- msg_thr_find_by_mrn, returning the found thread itself. -/
def msg_thr_find_by_mrn (ml : Msglist) (msg : Msg) : Option MsgThr :=
  (find_by_mrn_idx ml.thr msg).map (fun i => getIdx dummy_thr i ml.thr)

/-- timeout path of thr_status_upd: the synthesized DM62 ERROR message
with first argument TIMEDOUT and MRN preset to the last message's MIN.
The DM62 catalog entry (downlink, no response expected, no timeout) is
modelled from the spec since the catalog is not under src/. -/
def DM62_info : SegInfo :=
  { msg_type := CPDLC_DM62_ERROR_errorinfo, is_dl := true,
    resp := RespClass.N, timeout := 0 }

def timedout_msg (mrn0 : Option Nat) : Msg :=
  { seg0 := { info := DM62_info, arg0 := "TIMEDOUT" }, segs_rest := [],
    min := none, mrn := mrn0, from_cs := "", to_cs := "", is_logon := false }

/-- MIN/MRN assignment and bucket append of msglist_send_impl, acting on
the destination thread: walk the buckets tail to head for the latest
bucket of opposite direction and take its MIN as the MRN, then assign
the engine MIN counter as the MIN, then append the sent bucket.
Returns the updated thread and the updated MIN counter.  The C counter
is a 32-bit unsigned (`unsigned min` at cpdlc_msglist.c:58), so the
post-increment of `msglist->min++` wraps modulo 2^32. -/
def send_into_thr (env : Env) (mlmin : Nat) (msg : Msg) (thr : MsgThr) :
    MsgThr × Nat :=
  let msg1 :=
    match thr.buckets.reverse.find? (fun b => cpdlc_msg_get_dl b.msg != cpdlc_msg_get_dl msg) with
    | some b => { msg with mrn := b.msg.min }
    | none => msg
  let msg2 := { msg1 with min := some mlmin }
  let bucket : MsgBucket :=
    { msg := msg2, tok := env.tok, sent := true, hours := env.hours,
      mins := env.mins, time := env.now }
  ({ thr with buckets := thr.buckets ++ [bucket] }, (mlmin + 1) % (UINT32_MAX + 1))

/-- Set the status of a thread (helper for the timeout branch, where
the thread value is itself a compound expression). -/
def MsgThr.setStatus (t : MsgThr) (st : ThrStatus) : MsgThr := { t with status := st }

/-- Placeholder message and bucket used as the default of headD and
getLastD below; thr_status_upd only reads them when the bucket list is
empty, the case proved unreachable (in C this is the NULL pointer the
code would dereference). -/
def dummy_msg : Msg :=
  { seg0 := { info := { msg_type := 0, is_dl := true, resp := RespClass.N, timeout := 0 },
              arg0 := "" },
    segs_rest := [], min := none, mrn := none, from_cs := "", to_cs := "",
    is_logon := false }

def dummy_bucket : MsgBucket :=
  { msg := dummy_msg, tok := 0, sent := false, hours := 0, mins := 0, time := 0 }

/-- list_head(&thr->buckets) as read by thr_status_upd. -/
def thr_first (thr : MsgThr) : MsgBucket := thr.buckets.headD dummy_bucket

/-- list_tail(&thr->buckets) as read by thr_status_upd. -/
def thr_last (thr : MsgThr) : MsgBucket := thr.buckets.getLastD dummy_bucket

/-- thr_status_upd of cpdlc_msglist.c.  The C code dereferences the head
and tail buckets unconditionally; the empty-bucket case (modelled as a
no-op guard) is proved unreachable for all states reachable through the
public operations.  The C pointer comparison first == last holds exactly
when the (non-empty) list has one element.  Returns the updated thread
and the updated engine MIN counter (only the timeout branch, which sends
a DM62 through msglist_send_impl into this same thread, changes either
the buckets or the counter). -/
def thr_status_upd (env : Env) (mlmin : Nat) (thr : MsgThr) : MsgThr × Nat :=
  if thr.buckets.isEmpty then (thr, mlmin)
  else if thr_status_is_final thr.status then (thr, mlmin)
  else if decide (thr.buckets.length = 1) && (thr_first thr).sent &&
      !msg_dl_req_resp (thr_first thr).msg then
    ({ thr with status := ThrStatus.CLOSED }, mlmin)
  else if (thr_last thr).sent && msg_is_dl_req (thr_last thr).msg then
    if env.msg_status (thr_last thr).tok == ClMsgStatus.SENDING then
      ({ thr with status := ThrStatus.PENDING }, mlmin)
    else if env.msg_status (thr_last thr).tok == ClMsgStatus.SEND_FAILED then
      ({ thr with status := ThrStatus.FAILED }, mlmin)
    else ({ thr with status := ThrStatus.OPEN }, mlmin)
  else if msg_is_stby (thr_last thr).msg then
    ({ thr with status := ThrStatus.STANDBY }, mlmin)
  else if msg_is_accept (thr_last thr).msg then
    ({ thr with status := ThrStatus.ACCEPTED }, mlmin)
  else if msg_is_reject (thr_last thr).msg then
    ({ thr with status := ThrStatus.REJECTED }, mlmin)
  else if msg_is_rgr (thr_last thr).msg || msg_is_link_mgmt (thr_last thr).msg then
    ({ thr with status := ThrStatus.CLOSED }, mlmin)
  else if msg_is_ul_req (thr_last thr).msg && !(thr.status == ThrStatus.STANDBY) &&
      !(thr_get_timeout thr == 0) &&
      decide ((env.now : Int) - ((thr_last thr).time : Int) > (thr_get_timeout thr : Int)) then
    ((send_into_thr env mlmin (timedout_msg (thr_last thr).msg.min) thr).1.setStatus
       ThrStatus.TIMEDOUT,
     (send_into_thr env mlmin (timedout_msg (thr_last thr).msg.min) thr).2)
  else if is_disregard_msg (thr_last thr).msg then
    ({ thr with status := ThrStatus.DISREGARD }, mlmin)
  else if is_error_msg (thr_last thr).msg then
    ({ thr with status := ThrStatus.ERROR }, mlmin)
  else if !(env.logon == LogonStatus.COMPLETE) then
    ({ thr with status := ThrStatus.CONN_ENDED, dirty := false }, mlmin)
  else (thr, mlmin)

/-- Bucket built by msg_recv_cb for a received message (safe_calloc
zeroes sent, token set to CPDLC_INVALID_MSG_TOKEN). -/
def recv_bucket (env : Env) (msg : Msg) : MsgBucket :=
  { msg := msg, tok := CPDLC_INVALID_MSG_TOKEN, sent := false,
    hours := env.hours, mins := env.mins, time := env.now }

/-- Fresh thread made by find_msg_thr for CPDLC_NO_MSG_THR_ID
(safe_calloc zeroes status and dirty; it is inserted at the list
head). -/
def fresh_thr (tid : Nat) : MsgThr :=
  { thr_id := tid, status := ThrStatus.OPEN, buckets := [], dirty := false }

/-- One iteration of the receive loop of msg_recv_cb: correlate the
message by MRN, create a new thread at the list head if no thread
matches, append the received bucket, mark the thread dirty, recompute
its status. -/
def msg_recv_one (env : Env) (ml : Msglist) (msg : Msg) : Msglist :=
  match find_by_mrn_idx ml.thr msg with
  | some i =>
    let thr := getIdx dummy_thr i ml.thr
    let thr1 := { thr with buckets := thr.buckets ++ [recv_bucket env msg], dirty := true }
    let p := thr_status_upd env ml.min thr1
    { ml with thr := modifyIdx (fun _ => p.1) i ml.thr, min := p.2 }
  | none =>
    let thr1 := { fresh_thr ml.next_thr_id with
                  buckets := [recv_bucket env msg], dirty := true }
    let p := thr_status_upd env ml.min thr1
    { ml with thr := p.1 :: ml.thr, min := p.2,
              next_thr_id := ml.next_thr_id + 1 }

/-- cpdlc_msglist_send: send a message into an existing thread (some id,
which must name a thread of the list, or the C code VERIFY-aborts) or
into a fresh thread (none; find_msg_thr inserts it at the list head and
msglist_send_impl sets its status to OPEN), then recompute the thread
status.  Returns the new engine state and the destination thread id. -/
def cpdlc_msglist_send (env : Env) (ml : Msglist) (msg : Msg)
    (tid : Option Nat) : Msglist × Nat :=
  match tid with
  | none =>
    let q := send_into_thr env ml.min msg (fresh_thr ml.next_thr_id)
    let p := thr_status_upd env q.2 q.1
    ({ ml with thr := p.1 :: ml.thr, min := p.2,
               next_thr_id := ml.next_thr_id + 1 }, ml.next_thr_id)
  | some id =>
    match findFirstIdx (fun t => t.thr_id == id) ml.thr with
    | none => (ml, id)
    | some i =>
      let thr := getIdx dummy_thr i ml.thr
      let q := send_into_thr env ml.min msg thr
      let p := thr_status_upd env q.2 q.1
      ({ ml with thr := modifyIdx (fun _ => p.1) i ml.thr, min := p.2 }, id)

/-- Status recomputation of every thread in list order, threading the
engine MIN counter through (the timeout branch may send). -/
def upd_all (env : Env) : Nat → List MsgThr → List MsgThr × Nat
  | m, [] => ([], m)
  | m, t :: ts =>
    let p := thr_status_upd env m t
    let q := upd_all env p.2 ts
    (p.1 :: q.1, q.2)

/-- cpdlc_msglist_update: recompute the status of every thread. -/
def cpdlc_msglist_update (env : Env) (ml : Msglist) : Msglist :=
  let q := upd_all env ml.min ml.thr
  { ml with thr := q.1, min := q.2 }

/-- cpdlc_msglist_get_thr_ids: enumerate thread ids in list order (head
first); with ignore_closed, threads that are final-status and not dirty
are omitted.  The caller-supplied capacity truncation of the C API is
elided: the result is the full enumerated sequence. -/
def cpdlc_msglist_get_thr_ids (ml : Msglist) (ignore_closed : Bool) : List Nat :=
  (ml.thr.filter
    (fun t => !(ignore_closed && !t.dirty && thr_status_is_final t.status))).map
    (fun t => t.thr_id)

/-- cpdlc_msglist_thr_close: if the first thread with this id is not in
a final status, force it CLOSED. -/
def cpdlc_msglist_thr_close (ml : Msglist) (id : Nat) : Msglist :=
  let f : MsgThr → MsgThr := fun t =>
    if thr_status_is_final t.status then t
    else { t with status := ThrStatus.CLOSED }
  { ml with thr := modifyFirst (fun t => t.thr_id == id) f ml.thr }

/-- cpdlc_msglist_thr_mark_seen: clear the dirty flag. -/
def cpdlc_msglist_thr_mark_seen (ml : Msglist) (id : Nat) : Msglist :=
  let f : MsgThr → MsgThr := fun t => { t with dirty := false }
  { ml with thr := modifyFirst (fun t => t.thr_id == id) f ml.thr }

/-- cpdlc_msglist_remove_thr: detach and free the first thread with
this id. -/
def cpdlc_msglist_remove_thr (ml : Msglist) (id : Nat) : Msglist :=
  { ml with thr := removeFirst (fun t => t.thr_id == id) ml.thr }

/-- cpdlc_msglist_alloc: the initial engine state (safe_calloc zeroes
the counters; the thread list is empty). -/
def msglist_init : Msglist := { thr := [], min := 0, next_thr_id := 0 }

/-- One public engine operation, with the external inputs (environment,
messages, ids) as parameters.  Ids passed to operations that VERIFY
their validity in C are required to exist. -/
inductive Step : Msglist → Msglist → Prop
  | send_new (ml : Msglist) (env : Env) (msg : Msg) :
      Step ml (cpdlc_msglist_send env ml msg none).1
  | send_existing (ml : Msglist) (env : Env) (msg : Msg) (id : Nat)
      (h : ∃ t ∈ ml.thr, t.thr_id = id) :
      Step ml (cpdlc_msglist_send env ml msg (some id)).1
  | recv (ml : Msglist) (env : Env) (msg : Msg) :
      Step ml (msg_recv_one env ml msg)
  | update (ml : Msglist) (env : Env) :
      Step ml (cpdlc_msglist_update env ml)
  | close (ml : Msglist) (id : Nat) (h : ∃ t ∈ ml.thr, t.thr_id = id) :
      Step ml (cpdlc_msglist_thr_close ml id)
  | mark_seen (ml : Msglist) (id : Nat) (h : ∃ t ∈ ml.thr, t.thr_id = id) :
      Step ml (cpdlc_msglist_thr_mark_seen ml id)
  | remove (ml : Msglist) (id : Nat) (h : ∃ t ∈ ml.thr, t.thr_id = id) :
      Step ml (cpdlc_msglist_remove_thr ml id)

/-- Engine states reachable from the freshly allocated engine through
the public operations. -/
inductive Reachable : Msglist → Prop
  | init : Reachable msglist_init
  | step {ml ml2 : Msglist} : Reachable ml → Step ml ml2 → Reachable ml2

/-- conn_t of cpdlcd.c: a server-side connection.  cid models the C
pointer identity; socket, address and TLS session handles are external
collaborators and not modelled. -/
structure DConn where
  cid : Nat
  cfrom : String
  cto : String
  logon_complete : Bool
  tls_complete : Bool
  outbuf : String
deriving DecidableEq

/-- queued_msg_t: a fully encoded frame queued for a currently
disconnected recipient. -/
structure QMsg where
  qfrom : String
  qto : String
  created : Nat
  msg : String
deriving DecidableEq

/-- The daemon state touched by the modelled code: live connections (in
C, the conns AVL tree; order is irrelevant to the claims), the callsign
multimap conns_by_from as (callsign, cid) entries, the message queue and
its byte accounting. -/
structure DState where
  conns : List DConn
  conns_by_from : List (String × Nat)
  queued : List QMsg
  queued_bytes : Nat
deriving DecidableEq

def QUEUED_MSG_TIMEOUT : Nat := 3600

def queued_msg_max_bytes : Nat := 128 * 1048576

/-- Modelled from the spec: sizeof (queued_msg_t), the fixed per-entry
overhead added to the encoded length in the queue byte accounting.  The
numeric value (64 bytes on LP64) does not matter to any claim; only that
the same constant is added on enqueue and subtracted on dequeue. -/
def QMSG_OVERHEAD : Nat := 64

/-- Modelled from the spec: cpdlc_msg_encode of the wire codec, which is
not under src/.  The daemon treats the encoding as an opaque NUL-free
byte string whose length drives the queue accounting; the exact frame
syntax (spec section 6.1) is out of scope for the claims, so any fixed
total encoding serves. -/
def cpdlc_msg_encode (m : Msg) : String :=
  String.intercalate "/"
    ([m.from_cs, m.to_cs] ++ m.segs.map (fun s => toString s.info.msg_type ++ s.arg0)) ++ "\n"

/-- Bytes accounted for one queued message: sizeof (queued_msg_t) plus
the encoded length plus the NUL terminator. -/
def qmsg_bytes (q : QMsg) : Nat := QMSG_OVERHEAD + q.msg.length + 1

/-- Modelled from the spec: the UM159 catalog entry used for daemon
error replies (uplink, no response expected). -/
def UM159_info : SegInfo :=
  { msg_type := CPDLC_UM159_ERROR_description, is_dl := false,
    resp := RespClass.N, timeout := 0 }

/-- The error reply built by send_error_msg for an offending message:
UM159 if the offender was a downlink, DM62 if it was an uplink, first
argument the error text, MIN mirroring the offender's MIN. -/
def error_reply (orig : Msg) (txt : String) : Msg :=
  { seg0 := { info := if cpdlc_msg_get_dl orig then UM159_info else DM62_info,
              arg0 := txt },
    segs_rest := [], min := orig.min, mrn := none,
    from_cs := "", to_cs := "", is_logon := false }

/-- Look up a connection by identity (C follows the pointer). -/
def find_conn (st : DState) (cid : Nat) : Option DConn :=
  st.conns.find? (fun c => c.cid == cid)

/-- Replace the connection with this identity. -/
def upd_conn (st : DState) (cid : Nat) (f : DConn → DConn) : DState :=
  { st with conns := modifyFirst (fun c => c.cid == cid) f st.conns }

/-- conn_send_buf / conn_send_msg: append bytes to a connection's
out-buffer. -/
def conn_append_out (st : DState) (cid : Nat) (buf : String) : DState :=
  upd_conn st cid (fun c => { c with outbuf := c.outbuf ++ buf })

/-- send_error_msg of cpdlcd.c: encode an error reply for the offending
message and append it to the originating connection's out-buffer. -/
def send_error_msg (st : DState) (cid : Nat) (orig : Msg) (txt : String) : DState :=
  conn_append_out st cid (cpdlc_msg_encode (error_reply orig txt))

/-- All connection ids indexed under a callsign (htbl_lookup_multi). -/
def lookup_from (st : DState) (cs : String) : List Nat :=
  (st.conns_by_from.filter (fun e => e.1 == cs)).map (fun e => e.2)

/-- conn_remove_from of cpdlcd.c: remove this connection's entry from
the callsign index, clear logon_complete and the bound from callsign. -/
def conn_remove_from (st : DState) (cid : Nat) : DState :=
  match find_conn st cid with
  | none => st
  | some c =>
    let ix := removeFirst (fun e => e.1 == c.cfrom && e.2 == cid) st.conns_by_from
    let st1 := { st with conns_by_from := ix }
    upd_conn st1 cid (fun c2 => { c2 with logon_complete := false, cfrom := "" })

/-- process_logon_msg of cpdlcd.c: a re-logon first unbinds the old
callsign; then logon_complete is set and the to/from callsigns are
copied from the message BEFORE the empty-FROM check, so a logon with an
empty FROM leaves the connection flagged logon_complete with an empty
bound callsign and no index entry (the returned Bool is false). -/
def process_logon_msg (st : DState) (cid : Nat) (m : Msg) : DState × Bool :=
  let st1 :=
    match find_conn st cid with
    | some c => if c.logon_complete then conn_remove_from st cid else st
    | none => st
  let st2 := upd_conn st1 cid (fun c =>
    { c with logon_complete := true, cto := m.to_cs, cfrom := m.from_cs })
  if m.from_cs = "" then
    (send_error_msg st2 cid m "LOGON REQUIRES FROM= HEADER", false)
  else
    ({ st2 with conns_by_from := st2.conns_by_from ++ [(m.from_cs, cid)] }, true)

/-- store_msg of cpdlcd.c: enqueue the encoded message under the
(from, dst) callsign pair unless the byte budget would be exceeded
(none = rejected). -/
def store_msg (now : Nat) (st : DState) (m : Msg) (dst : String) : Option DState :=
  let l := (cpdlc_msg_encode m).length
  let bytes := QMSG_OVERHEAD + l + 1
  if st.queued_bytes + bytes > queued_msg_max_bytes then none
  else
    let q : QMsg := { qfrom := m.from_cs, qto := dst, created := now,
                      msg := cpdlc_msg_encode m }
    some { st with queued := st.queued ++ [q],
                   queued_bytes := st.queued_bytes + bytes }

/-- Fan a frame out to every listed connection id in order. -/
def fanout (st : DState) (tgts : List Nat) (buf : String) : DState :=
  tgts.foldl (fun s t => conn_append_out s t buf) st

/-- Forwarding phase of conn_process_msg of cpdlcd.c (the code after
the logon handling): TO resolution, FROM overwrite, then delivery to
all indexed connections or queueing with budget enforcement. -/
def conn_route_msg (now : Nat) (st : DState) (cid : Nat) (m : Msg) : DState :=
  match find_conn st cid with
  | none => st
  | some c =>
    let dst := if m.to_cs = "" then c.cto else m.to_cs
    if dst = "" then send_error_msg st cid m "MESSAGE MISSING TO= HEADER"
    else
      let m1 := { m with from_cs := c.cfrom }
      let tgts := lookup_from st dst
      if tgts = [] then
        match store_msg now st m1 dst with
        | some st2 => st2
        | none => send_error_msg st cid m "TOO MANY QUEUED MESSAGES"
      else fanout st tgts (cpdlc_msg_encode m1)

/-- conn_process_msg of cpdlcd.c: logon gating and logon handling,
then the forwarding phase.  The connection is never closed on these
paths. -/
def conn_process_msg (now : Nat) (st : DState) (cid : Nat) (m : Msg) : DState :=
  match find_conn st cid with
  | none => st
  | some c0 =>
    if !c0.logon_complete && !m.is_logon then
      send_error_msg st cid m "LOGON REQUIRED"
    else
      let p := if m.is_logon then process_logon_msg st cid m else (st, true)
      if !p.2 then p.1
      else conn_route_msg now p.1 cid m

/-- close_conn of cpdlcd.c (state portion): unbind from the callsign
index when logged on, then drop the connection. -/
def close_conn (st : DState) (cid : Nat) : DState :=
  match find_conn st cid with
  | none => st
  | some c =>
    let st1 := if c.logon_complete then conn_remove_from st cid else st
    { st1 with conns := removeFirst (fun c2 => c2.cid == cid) st1.conns }

/-- dequeue_msg's byte accounting for the current entry. -/
def dequeue_bytes (st : DState) (q : QMsg) : DState :=
  { st with queued_bytes := st.queued_bytes - qmsg_bytes q }

/-- handle_queued_msgs of cpdlcd.c, processing the pending entries in
queue order: an entry whose recipient now has indexed connections is
fanned out to all of them and dequeued; otherwise an entry older than
the TTL is dequeued; other entries are kept.  Returns the updated state
(conns and byte counter) and the kept entries in order. -/
def sweep_go (now : Nat) (st : DState) : List QMsg → DState × List QMsg
  | [] => (st, [])
  | q :: rest =>
    let tgts := lookup_from st q.qto
    if !tgts.isEmpty then
      sweep_go now (dequeue_bytes (fanout st tgts q.msg) q) rest
    else if (now : Int) - (q.created : Int) > (QUEUED_MSG_TIMEOUT : Int) then
      sweep_go now (dequeue_bytes st q) rest
    else
      let p := sweep_go now st rest
      (p.1, q :: p.2)

/-- handle_queued_msgs: one sweep of the queue. -/
def handle_queued_msgs (now : Nat) (st : DState) : DState :=
  let p := sweep_go now st st.queued
  { p.1 with queued := p.2 }

/-- A freshly accepted connection (safe_calloc zeroes everything). -/
def fresh_conn (cid : Nat) : DConn :=
  { cid := cid, cfrom := "", cto := "", logon_complete := false,
    tls_complete := false, outbuf := "" }

/-- The daemon state after init_structs: everything empty. -/
def dstate_init : DState :=
  { conns := [], conns_by_from := [], queued := [], queued_bytes := 0 }

/-- One event-loop action of the daemon that touches the modelled state:
accepting a connection (fresh identity), completing its TLS handshake,
processing one decoded message on a handshaken connection, closing a
connection, or one queue sweep. -/
inductive DStep : DState → DState → Prop
  | accept (st : DState) (cid : Nat) (h : ∀ c ∈ st.conns, c.cid ≠ cid) :
      DStep st { st with conns := st.conns ++ [fresh_conn cid] }
  | tls_done (st : DState) (cid : Nat) :
      DStep st (upd_conn st cid (fun c => { c with tls_complete := true }))
  | process (st : DState) (cid : Nat) (m : Msg) (now : Nat)
      (h : ∃ c, find_conn st cid = some c ∧ c.tls_complete = true) :
      DStep st (conn_process_msg now st cid m)
  | close (st : DState) (cid : Nat) :
      DStep st (close_conn st cid)
  | sweep (st : DState) (now : Nat) :
      DStep st (handle_queued_msgs now st)

/-- Daemon states reachable from startup. -/
inductive DReachable : DState → Prop
  | init : DReachable dstate_init
  | step {st st2 : DState} : DReachable st → DStep st st2 → DReachable st2

/-- Elements of a modifyIdx image are old elements or images under f. -/
theorem mem_modifyIdx {α : Type} (f : α → α) (i : Nat) (l : List α) (a : α)
    (h : a ∈ modifyIdx f i l) : a ∈ l ∨ ∃ x ∈ l, a = f x := by
  induction l generalizing i with
  | nil => simp [modifyIdx] at h
  | cons x xs ih =>
    cases i with
    | zero =>
      rcases (by simpa [modifyIdx] using h : a = f x ∨ a ∈ xs) with h2 | h2
      · exact Or.inr ⟨x, by simp, h2⟩
      · exact Or.inl (by simp [h2])
    | succ n =>
      rcases (by simpa [modifyIdx] using h : a = x ∨ a ∈ modifyIdx f n xs) with h2 | h2
      · exact Or.inl (by simp [h2])
      · rcases ih n h2 with h3 | ⟨y, hy, he⟩
        · exact Or.inl (by simp [h3])
        · exact Or.inr ⟨y, by simp [hy], he⟩

/-- An old element distinct from the element at the modified index
survives a constant modifyIdx. -/
theorem mem_modifyIdx_const_of_ne {α : Type} (v d : α) (i : Nat) (l : List α) (a : α)
    (ha : a ∈ l) (hne : a ≠ getIdx d i l) : a ∈ modifyIdx (fun _ => v) i l := by
  induction l generalizing i with
  | nil => simp at ha
  | cons x xs ih =>
    rcases (by simpa using ha : a = x ∨ a ∈ xs) with h2 | h2
    · cases i with
      | zero => exact absurd (by simpa [getIdx] using h2) hne
      | succ n => subst h2; simp [modifyIdx]
    · cases i with
      | zero => simp [modifyIdx, h2]
      | succ n =>
        have := ih n h2 (by simpa [getIdx] using hne)
        simp [modifyIdx, this]

/-- A constant modifyIdx whose value agrees with the old element on the
view g leaves the mapped list unchanged. -/
theorem map_modifyIdx_const {α β : Type} (g : α → β) (v d : α) (i : Nat) (l : List α)
    (h : g v = g (getIdx d i l)) : (modifyIdx (fun _ => v) i l).map g = l.map g := by
  induction l generalizing i with
  | nil => simp [modifyIdx]
  | cons x xs ih =>
    cases i with
    | zero => simp [modifyIdx, getIdx] at h ⊢; simp [h]
    | succ n => simp [modifyIdx, getIdx] at h ⊢; exact ih n h

/-- findFirstIdx returns a valid index whose element satisfies p. -/
theorem findFirstIdx_spec {α : Type} (p : α → Bool) (l : List α) (i : Nat) (d : α)
    (h : findFirstIdx p l = some i) : i < l.length ∧ p (getIdx d i l) = true := by
  induction l generalizing i with
  | nil => simp [findFirstIdx] at h
  | cons x xs ih =>
    by_cases hp : p x = true
    · have : i = 0 := by simpa [findFirstIdx, hp] using h.symm
      subst this
      exact ⟨by simp, by simpa [getIdx] using hp⟩
    · have hp2 : p x = false := by simpa using hp
      rcases (by simpa [findFirstIdx, hp2] using h :
          ∃ j, findFirstIdx p xs = some j ∧ j + 1 = i) with ⟨j, hj, hji⟩
      obtain ⟨h1, h2⟩ := ih j hj
      subst hji
      exact ⟨by simpa using Nat.succ_lt_succ h1, by simpa [getIdx] using h2⟩

/-- findLastIdx returns a valid index whose element satisfies p. -/
theorem findLastIdx_spec {α : Type} (p : α → Bool) (l : List α) (i : Nat) (d : α)
    (h : findLastIdx p l = some i) : i < l.length ∧ p (getIdx d i l) = true := by
  induction l generalizing i with
  | nil => simp [findLastIdx] at h
  | cons x xs ih =>
    cases hx : findLastIdx p xs with
    | some j =>
      have : j + 1 = i := by simpa [findLastIdx, hx] using h
      subst this
      obtain ⟨h1, h2⟩ := ih j hx
      exact ⟨by simpa using Nat.succ_lt_succ h1, by simpa [getIdx] using h2⟩
    | none =>
      by_cases hp : p x = true
      · have : i = 0 := by simpa [findLastIdx, hx, hp] using h.symm
        subst this
        exact ⟨by simp, by simpa [getIdx] using hp⟩
      · simp [findLastIdx, hx, hp] at h

/-- An in-range getIdx is a member. -/
theorem getIdx_mem {α : Type} (d : α) (i : Nat) (l : List α)
    (h : i < l.length) : getIdx d i l ∈ l := by
  induction l generalizing i with
  | nil => simp at h
  | cons x xs ih =>
    cases i with
    | zero => simp [getIdx]
    | succ n => simpa [getIdx] using Or.inr (ih n (by simpa using h))

/-- Elements of a modifyFirst image are old elements or images under f. -/
theorem mem_modifyFirst {α : Type} (p : α → Bool) (f : α → α) (l : List α) (a : α)
    (h : a ∈ modifyFirst p f l) : a ∈ l ∨ ∃ x ∈ l, a = f x := by
  induction l with
  | nil => simp [modifyFirst] at h
  | cons x xs ih =>
    by_cases hp : p x = true
    · rcases (by simpa [modifyFirst, hp] using h : a = f x ∨ a ∈ xs) with h2 | h2
      · exact Or.inr ⟨x, by simp, h2⟩
      · exact Or.inl (by simp [h2])
    · have hp2 : p x = false := by simpa using hp
      rcases (by simpa [modifyFirst, hp2] using h : a = x ∨ a ∈ modifyFirst p f xs) with h2 | h2
      · exact Or.inl (by simp [h2])
      · rcases ih h2 with h3 | ⟨y, hy, he⟩
        · exact Or.inl (by simp [h3])
        · exact Or.inr ⟨y, by simp [hy], he⟩

/-- modifyFirst with an f that fixes every p-element is the identity. -/
theorem modifyFirst_eq_self {α : Type} (p : α → Bool) (f : α → α) (l : List α)
    (h : ∀ x ∈ l, p x = true → f x = x) : modifyFirst p f l = l := by
  induction l with
  | nil => rfl
  | cons x xs ih =>
    by_cases hp : p x = true
    · simp [modifyFirst, hp, h x (by simp) hp]
    · have hp2 : p x = false := by simpa using hp
      simp [modifyFirst, hp2, ih (fun y hy => h y (by simp [hy]))]

/-- modifyFirst with an f preserved by the view g leaves the mapped
list unchanged. -/
theorem map_modifyFirst {α β : Type} (g : α → β) (p : α → Bool) (f : α → α) (l : List α)
    (h : ∀ x, g (f x) = g x) : (modifyFirst p f l).map g = l.map g := by
  induction l with
  | nil => rfl
  | cons x xs ih =>
    by_cases hp : p x = true
    · simp [modifyFirst, hp, h]
    · have hp2 : p x = false := by simpa using hp
      simp [modifyFirst, hp2, ih]

/-- removeFirst yields a sublist. -/
theorem removeFirst_sublist {α : Type} (p : α → Bool) (l : List α) :
    List.Sublist (removeFirst p l) l := by
  induction l with
  | nil => simp [removeFirst]
  | cons x xs ih =>
    by_cases hp : p x = true
    · simp only [removeFirst, hp, if_true]
      exact List.Sublist.cons x (List.Sublist.refl xs)
    · have hp2 : p x = false := by simpa using hp
      simpa [removeFirst, hp2] using List.Sublist.cons₂ x ih

/-- Shape of one send into a thread: the counter advances by one modulo
2^32 (it is a 32-bit unsigned in C), the thread keeps its identity,
status and dirty flag, and exactly one sent bucket is appended. -/
theorem send_into_thr_parts (env : Env) (m : Nat) (msg : Msg) (thr : MsgThr) :
    (send_into_thr env m msg thr).2 = (m + 1) % (UINT32_MAX + 1) ∧
    (send_into_thr env m msg thr).1.thr_id = thr.thr_id ∧
    (send_into_thr env m msg thr).1.status = thr.status ∧
    (send_into_thr env m msg thr).1.dirty = thr.dirty ∧
    ∃ b, (send_into_thr env m msg thr).1.buckets = thr.buckets ++ [b] := by
  unfold send_into_thr
  cases h : thr.buckets.reverse.find? (fun b => cpdlc_msg_get_dl b.msg != cpdlc_msg_get_dl msg) with
  | none => simp
  | some b => simp

/-- Status recomputation of a thread already in a final status is a
no-op (the early return of thr_status_upd). -/
theorem thr_status_upd_of_final (env : Env) (m : Nat) (thr : MsgThr)
    (h : thr_status_is_final thr.status = true) :
    thr_status_upd env m thr = (thr, m) := by
  by_cases he : thr.buckets.isEmpty = true
  · simp [thr_status_upd, he]
  · simp [thr_status_upd, he, h]

/-- Case shape of one status recomputation: a no-op, a pure status
change, the CONN_ENDED status-and-dirty change, or the timeout branch
(a send into the same thread followed by the TIMEDOUT status). -/
theorem thr_status_upd_shape (env : Env) (m : Nat) (thr : MsgThr) (r : MsgThr × Nat)
    (h : thr_status_upd env m thr = r) :
    r = (thr, m) ∨
    (∃ st2, r = ({ thr with status := st2 }, m)) ∨
    r = ({ thr with status := ThrStatus.CONN_ENDED, dirty := false }, m) ∨
    (∃ msg2, r =
       ((send_into_thr env m msg2 thr).1.setStatus ThrStatus.TIMEDOUT,
        (send_into_thr env m msg2 thr).2)) := by
  rw [thr_status_upd] at h
  by_cases c1 : thr.buckets.isEmpty = true
  · rw [if_pos c1] at h
    exact Or.inl h.symm
  rw [if_neg c1] at h
  by_cases c2 : thr_status_is_final thr.status = true
  · rw [if_pos c2] at h
    exact Or.inl h.symm
  rw [if_neg c2] at h
  by_cases c3 : (decide (thr.buckets.length = 1) && (thr_first thr).sent &&
      !msg_dl_req_resp (thr_first thr).msg) = true
  · rw [if_pos c3] at h
    exact Or.inr (Or.inl ⟨ThrStatus.CLOSED, h.symm⟩)
  rw [if_neg c3] at h
  by_cases c4 : ((thr_last thr).sent && msg_is_dl_req (thr_last thr).msg) = true
  · rw [if_pos c4] at h
    by_cases c5 : (env.msg_status (thr_last thr).tok == ClMsgStatus.SENDING) = true
    · rw [if_pos c5] at h
      exact Or.inr (Or.inl ⟨ThrStatus.PENDING, h.symm⟩)
    rw [if_neg c5] at h
    by_cases c6 : (env.msg_status (thr_last thr).tok == ClMsgStatus.SEND_FAILED) = true
    · rw [if_pos c6] at h
      exact Or.inr (Or.inl ⟨ThrStatus.FAILED, h.symm⟩)
    rw [if_neg c6] at h
    exact Or.inr (Or.inl ⟨ThrStatus.OPEN, h.symm⟩)
  rw [if_neg c4] at h
  by_cases c7 : msg_is_stby (thr_last thr).msg = true
  · rw [if_pos c7] at h
    exact Or.inr (Or.inl ⟨ThrStatus.STANDBY, h.symm⟩)
  rw [if_neg c7] at h
  by_cases c8 : msg_is_accept (thr_last thr).msg = true
  · rw [if_pos c8] at h
    exact Or.inr (Or.inl ⟨ThrStatus.ACCEPTED, h.symm⟩)
  rw [if_neg c8] at h
  by_cases c9 : msg_is_reject (thr_last thr).msg = true
  · rw [if_pos c9] at h
    exact Or.inr (Or.inl ⟨ThrStatus.REJECTED, h.symm⟩)
  rw [if_neg c9] at h
  by_cases c10 : (msg_is_rgr (thr_last thr).msg || msg_is_link_mgmt (thr_last thr).msg) = true
  · rw [if_pos c10] at h
    exact Or.inr (Or.inl ⟨ThrStatus.CLOSED, h.symm⟩)
  rw [if_neg c10] at h
  by_cases c11 : (msg_is_ul_req (thr_last thr).msg && !(thr.status == ThrStatus.STANDBY) &&
      !(thr_get_timeout thr == 0) &&
      decide ((env.now : Int) - ((thr_last thr).time : Int) > (thr_get_timeout thr : Int))) = true
  · rw [if_pos c11] at h
    exact Or.inr (Or.inr (Or.inr ⟨timedout_msg (thr_last thr).msg.min, h.symm⟩))
  rw [if_neg c11] at h
  by_cases c12 : is_disregard_msg (thr_last thr).msg = true
  · rw [if_pos c12] at h
    exact Or.inr (Or.inl ⟨ThrStatus.DISREGARD, h.symm⟩)
  rw [if_neg c12] at h
  by_cases c13 : is_error_msg (thr_last thr).msg = true
  · rw [if_pos c13] at h
    exact Or.inr (Or.inl ⟨ThrStatus.ERROR, h.symm⟩)
  rw [if_neg c13] at h
  by_cases c14 : (!(env.logon == LogonStatus.COMPLETE)) = true
  · rw [if_pos c14] at h
    exact Or.inr (Or.inr (Or.inl h.symm))
  rw [if_neg c14] at h
  exact Or.inl h.symm

/-- Shape of one status recomputation: the thread keeps its identity,
the counter is either untouched or advanced by one modulo 2^32 (by the
timeout branch), and the buckets are only ever extended (also by the
timeout branch). -/
theorem thr_status_upd_parts (env : Env) (m : Nat) (thr : MsgThr) :
    (thr_status_upd env m thr).1.thr_id = thr.thr_id ∧
    ((thr_status_upd env m thr).2 = m ∨
      (thr_status_upd env m thr).2 = (m + 1) % (UINT32_MAX + 1)) ∧
    ∃ s, (thr_status_upd env m thr).1.buckets = thr.buckets ++ s := by
  rcases thr_status_upd_shape env m thr _ rfl with h | ⟨st2, h⟩ | h | ⟨msg2, h⟩
  · exact ⟨by simp [h], Or.inl (by simp [h]), [], by simp [h]⟩
  · exact ⟨by simp [h], Or.inl (by simp [h]), [], by simp [h]⟩
  · exact ⟨by simp [h], Or.inl (by simp [h]), [], by simp [h]⟩
  · obtain ⟨h1, h2, h3, h4, b, hb2⟩ := send_into_thr_parts env m msg2 thr
    exact ⟨by simp [h, MsgThr.setStatus, h2], Or.inr (by simp [h, h1]),
      [b], by simp [h, MsgThr.setStatus, hb2]⟩

/-- Shape of a whole-list status recomputation: thread ids are
preserved positionally, the counter stays inside the 32-bit range, and
every result thread is a status recomputation of an original thread. -/
theorem upd_all_parts (env : Env) (m : Nat) (l : List MsgThr) :
    (upd_all env m l).1.map (fun t => t.thr_id) = l.map (fun t => t.thr_id) ∧
    (m < UINT32_MAX + 1 → (upd_all env m l).2 < UINT32_MAX + 1) ∧
    ∀ t ∈ (upd_all env m l).1, ∃ t0 ∈ l, ∃ m0, t = (thr_status_upd env m0 t0).1 := by
  induction l generalizing m with
  | nil => exact ⟨rfl, fun hm => hm, by simp [upd_all]⟩
  | cons x xs ih =>
    obtain ⟨p1, p2, p3⟩ := thr_status_upd_parts env m x
    obtain ⟨q1, q2, q3⟩ := ih (thr_status_upd env m x).2
    refine ⟨by simp [upd_all, p1, q1], ?_, ?_⟩
    · intro hm
      have hstep : (thr_status_upd env m x).2 < UINT32_MAX + 1 := by
        rcases p2 with h | h
        · rw [h]; exact hm
        · rw [h]; exact Nat.mod_lt _ (Nat.succ_pos _)
      simpa [upd_all] using q2 hstep
    · intro t ht
      rcases (by simpa [upd_all] using ht :
          t = (thr_status_upd env m x).1 ∨
          t ∈ (upd_all env (thr_status_upd env m x).2 xs).1) with h | h
      · exact ⟨x, by simp, m, h⟩
      · obtain ⟨t0, ht0, m0, he⟩ := q3 t h
        exact ⟨t0, by simp [ht0], m0, he⟩

/-- Shape of the send-then-recompute composition used by
cpdlc_msglist_send and msg_recv_cb: the thread keeps its id, the
counter stays inside the 32-bit range, and the thread ends non-empty. -/
theorem send_then_upd_parts (env : Env) (m : Nat) (msg : Msg) (thr : MsgThr) :
    (thr_status_upd env (send_into_thr env m msg thr).2
        (send_into_thr env m msg thr).1).1.thr_id = thr.thr_id ∧
    (thr_status_upd env (send_into_thr env m msg thr).2
        (send_into_thr env m msg thr).1).2 < UINT32_MAX + 1 ∧
    (thr_status_upd env (send_into_thr env m msg thr).2
        (send_into_thr env m msg thr).1).1.buckets ≠ [] := by
  obtain ⟨s1, s2, s3, s4, b, sb⟩ := send_into_thr_parts env m msg thr
  obtain ⟨u1, u2, u3⟩ := thr_status_upd_parts env (send_into_thr env m msg thr).2
    (send_into_thr env m msg thr).1
  refine ⟨by rw [u1, s2], ?_, ?_⟩
  · have hs : (send_into_thr env m msg thr).2 < UINT32_MAX + 1 := by
      rw [s1]; exact Nat.mod_lt _ (Nat.succ_pos _)
    rcases u2 with h | h
    · rw [h]; exact hs
    · rw [h]; exact Nat.mod_lt _ (Nat.succ_pos _)
  · obtain ⟨s, hs⟩ := u3
    rw [hs, sb]
    simp

/-- The engine invariant: every thread holds at least one bucket,
thread ids run strictly decreasing from the list head (newest first),
and all ids are below the id counter. -/
def engine_inv (ml : Msglist) : Prop :=
  (∀ t ∈ ml.thr, t.buckets ≠ []) ∧
  List.Pairwise (fun a b => a > b) (ml.thr.map (fun t => t.thr_id)) ∧
  ∀ t ∈ ml.thr, t.thr_id < ml.next_thr_id

/-- Every public operation preserves the engine invariant. -/
theorem step_inv {ml ml2 : Msglist} (hs : Step ml ml2) (hi : engine_inv ml) :
    engine_inv ml2 := by
  obtain ⟨hb, hp, hlt⟩ := hi
  cases hs with
  | send_new env msg =>
    obtain ⟨e1, e2, e3⟩ := send_then_upd_parts env ml.min msg (fresh_thr ml.next_thr_id)
    simp only [cpdlc_msglist_send]
    refine ⟨?_, ?_, ?_⟩
    · intro t ht
      rcases (by simpa using ht :
          t = (thr_status_upd env (send_into_thr env ml.min msg (fresh_thr ml.next_thr_id)).2
            (send_into_thr env ml.min msg (fresh_thr ml.next_thr_id)).1).1 ∨ t ∈ ml.thr) with h | h
      · rw [h]
        exact e3
      · exact hb t h
    · refine List.pairwise_cons.mpr ⟨?_, hp⟩
      intro b hb2
      obtain ⟨t0, ht0, he⟩ := List.mem_map.mp hb2
      have hx : b < ml.next_thr_id := he ▸ hlt t0 ht0
      have e1b : (thr_status_upd env (send_into_thr env ml.min msg (fresh_thr ml.next_thr_id)).2
          (send_into_thr env ml.min msg (fresh_thr ml.next_thr_id)).1).1.thr_id = ml.next_thr_id := by
        rw [e1]
        rfl
      simpa [e1b] using hx
    · intro t ht
      rcases (by simpa using ht :
          t = (thr_status_upd env (send_into_thr env ml.min msg (fresh_thr ml.next_thr_id)).2
            (send_into_thr env ml.min msg (fresh_thr ml.next_thr_id)).1).1 ∨ t ∈ ml.thr) with h | h
      · rw [h, e1]
        simp [fresh_thr]

      · simpa using Nat.lt_succ_of_lt (hlt t h)
  | send_existing env msg id hex =>
    cases hfi : findFirstIdx (fun t => t.thr_id == id) ml.thr with
    | none =>
      simp only [cpdlc_msglist_send, hfi]
      exact ⟨hb, hp, hlt⟩
    | some i =>
      obtain ⟨hilen, hpi⟩ := findFirstIdx_spec (fun t => t.thr_id == id) ml.thr i dummy_thr hfi
      obtain ⟨e1, e2, e3⟩ :=
        send_then_upd_parts env ml.min msg (getIdx dummy_thr i ml.thr)
      simp only [cpdlc_msglist_send, hfi]
      have hmap := map_modifyIdx_const (fun t => t.thr_id)
        ((thr_status_upd env (send_into_thr env ml.min msg (getIdx dummy_thr i ml.thr)).2
          (send_into_thr env ml.min msg (getIdx dummy_thr i ml.thr)).1).1)
        dummy_thr i ml.thr e1
      refine ⟨?_, ?_, ?_⟩
      · intro t ht
        rcases mem_modifyIdx _ i _ t (by simpa using ht) with h | ⟨x, hx, he⟩
        · exact hb t h
        · rw [he]
          exact e3
      · simp only [Msglist.thr]
        rw [hmap]
        exact hp
      · intro t ht
        rcases mem_modifyIdx _ i _ t (by simpa using ht) with h | ⟨x, hx, he⟩
        · simpa using hlt t h
        · rw [he]
          simpa [e1] using hlt _ (getIdx_mem dummy_thr i ml.thr hilen)
  | recv env msg =>
    cases hfi : find_by_mrn_idx ml.thr msg with
    | some i =>
      have hfi2 : findLastIdx (thr_matches_mrn msg) ml.thr = some i := by
        by_cases hm : msg.mrn = none
        · simp [find_by_mrn_idx, hm] at hfi
        · simpa [find_by_mrn_idx, hm] using hfi
      obtain ⟨hilen, hpi⟩ := findLastIdx_spec (thr_matches_mrn msg) ml.thr i dummy_thr hfi2
      obtain ⟨u1, u2, u3⟩ := thr_status_upd_parts env ml.min
        { thr_id := (getIdx dummy_thr i ml.thr).thr_id,
          status := (getIdx dummy_thr i ml.thr).status,
          buckets := (getIdx dummy_thr i ml.thr).buckets ++ [recv_bucket env msg],
          dirty := true }
      simp only [msg_recv_one, hfi]
      have hmap := map_modifyIdx_const (fun t => t.thr_id)
        ((thr_status_upd env ml.min
          { thr_id := (getIdx dummy_thr i ml.thr).thr_id,
            status := (getIdx dummy_thr i ml.thr).status,
            buckets := (getIdx dummy_thr i ml.thr).buckets ++ [recv_bucket env msg],
            dirty := true }).1)
        dummy_thr i ml.thr (by simpa using u1)
      refine ⟨?_, ?_, ?_⟩
      · intro t ht
        rcases mem_modifyIdx _ i _ t (by simpa using ht) with h | ⟨x, hx, he⟩
        · exact hb t h
        · rw [he]
          obtain ⟨s, hs⟩ := u3
          rw [hs]
          simp
      · simp only [Msglist.thr]
        rw [hmap]
        exact hp
      · intro t ht
        rcases mem_modifyIdx _ i _ t (by simpa using ht) with h | ⟨x, hx, he⟩
        · simpa using hlt t h
        · rw [he]
          simpa [u1] using hlt _ (getIdx_mem dummy_thr i ml.thr hilen)
    | none =>
      obtain ⟨u1, u2, u3⟩ := thr_status_upd_parts env ml.min
        { thr_id := ml.next_thr_id, status := ThrStatus.OPEN,
          buckets := [recv_bucket env msg], dirty := true }
      simp only [msg_recv_one, hfi, fresh_thr]
      refine ⟨?_, ?_, ?_⟩
      · intro t ht
        rcases (by simpa using ht :
            t = (thr_status_upd env ml.min
              { thr_id := ml.next_thr_id, status := ThrStatus.OPEN,
                buckets := [recv_bucket env msg], dirty := true }).1 ∨ t ∈ ml.thr) with h | h
        · rw [h]
          obtain ⟨s, hs⟩ := u3
          rw [hs]
          simp
        · exact hb t h
      · refine List.pairwise_cons.mpr ⟨?_, hp⟩
        intro b hb2
        obtain ⟨t0, ht0, he⟩ := List.mem_map.mp hb2
        have hx : b < ml.next_thr_id := he ▸ hlt t0 ht0
        simpa [u1] using hx
      · intro t ht
        rcases (by simpa using ht :
            t = (thr_status_upd env ml.min
              { thr_id := ml.next_thr_id, status := ThrStatus.OPEN,
                buckets := [recv_bucket env msg], dirty := true }).1 ∨ t ∈ ml.thr) with h | h
        · rw [h]
          simpa using Nat.lt_of_le_of_lt (Nat.le_of_eq u1) (by simp)
        · simpa using Nat.lt_succ_of_lt (hlt t h)
  | update env =>
    obtain ⟨q1, q2, q3⟩ := upd_all_parts env ml.min ml.thr
    simp only [cpdlc_msglist_update]
    refine ⟨?_, ?_, ?_⟩
    · intro t ht
      obtain ⟨t0, ht0, m0, he⟩ := q3 t (by simpa using ht)
      obtain ⟨v1, v2, v3⟩ := thr_status_upd_parts env m0 t0
      rw [he]
      obtain ⟨s, hs⟩ := v3
      rw [hs]
      intro hcon
      exact hb t0 ht0 (List.append_eq_nil.mp hcon).1
    · simp only [Msglist.thr]
      rw [q1]
      exact hp
    · intro t ht
      obtain ⟨t0, ht0, m0, he⟩ := q3 t (by simpa using ht)
      obtain ⟨v1, v2, v3⟩ := thr_status_upd_parts env m0 t0
      rw [he]
      simpa [v1] using hlt t0 ht0
  | close id hex =>
    simp only [cpdlc_msglist_thr_close]
    have hmap := map_modifyFirst (fun t => t.thr_id) (fun t => t.thr_id == id)
      (fun t => if thr_status_is_final t.status then t
                else { t with status := ThrStatus.CLOSED }) ml.thr
      (by intro x; by_cases hfin : thr_status_is_final x.status = true <;> simp [hfin])
    refine ⟨?_, ?_, ?_⟩
    · intro t ht
      rcases mem_modifyFirst _ _ _ t (by simpa using ht) with h | ⟨x, hx, he⟩
      · exact hb t h
      · rw [he]
        by_cases hfin : thr_status_is_final x.status = true <;>
          simpa [hfin] using hb x hx
    · simp only [Msglist.thr]
      rw [hmap]
      exact hp
    · intro t ht
      rcases mem_modifyFirst _ _ _ t (by simpa using ht) with h | ⟨x, hx, he⟩
      · simpa using hlt t h
      · rw [he]
        by_cases hfin : thr_status_is_final x.status = true <;>
          simpa [hfin] using hlt x hx
  | mark_seen id hex =>
    simp only [cpdlc_msglist_thr_mark_seen]
    have hmap := map_modifyFirst (fun t => t.thr_id) (fun t => t.thr_id == id)
      (fun t => { t with dirty := false }) ml.thr (by intro x; simp)
    refine ⟨?_, ?_, ?_⟩
    · intro t ht
      rcases mem_modifyFirst _ _ _ t (by simpa using ht) with h | ⟨x, hx, he⟩
      · exact hb t h
      · rw [he]
        simpa using hb x hx
    · simp only [Msglist.thr]
      rw [hmap]
      exact hp
    · intro t ht
      rcases mem_modifyFirst _ _ _ t (by simpa using ht) with h | ⟨x, hx, he⟩
      · simpa using hlt t h
      · rw [he]
        simpa using hlt x hx
  | remove id hex =>
    simp only [cpdlc_msglist_remove_thr]
    have hsub := List.Sublist.map (fun t => t.thr_id)
      (removeFirst_sublist (fun t => t.thr_id == id) ml.thr)
    refine ⟨?_, ?_, ?_⟩
    · intro t ht
      exact hb t ((removeFirst_sublist _ ml.thr).subset (by simpa using ht))
    · simp only [Msglist.thr]
      exact List.Pairwise.sublist hsub hp
    · intro t ht
      simpa using hlt t ((removeFirst_sublist _ ml.thr).subset (by simpa using ht))

/-- All reachable engine states satisfy the engine invariant. -/
theorem reachable_inv (ml : Msglist) (h : Reachable ml) : engine_inv ml := by
  induction h with
  | init => exact ⟨by simp [msglist_init], by simp [msglist_init], by simp [msglist_init]⟩
  | step _ hs ih => exact step_inv hs ih

/-- The engine MIN counter is a 32-bit unsigned in C: no public
operation ever takes it out of the range [0, 2^32). -/
theorem step_min_bound {ml ml2 : Msglist} (hs : Step ml ml2)
    (hm : ml.min < UINT32_MAX + 1) : ml2.min < UINT32_MAX + 1 := by
  cases hs with
  | send_new env msg =>
    obtain ⟨e1, e2, e3⟩ := send_then_upd_parts env ml.min msg (fresh_thr ml.next_thr_id)
    simpa [cpdlc_msglist_send] using e2
  | send_existing env msg id hex =>
    cases hfi : findFirstIdx (fun t => t.thr_id == id) ml.thr with
    | none => simpa [cpdlc_msglist_send, hfi] using hm
    | some i =>
      obtain ⟨e1, e2, e3⟩ := send_then_upd_parts env ml.min msg (getIdx dummy_thr i ml.thr)
      simpa [cpdlc_msglist_send, hfi] using e2
  | recv env msg =>
    cases hfi : find_by_mrn_idx ml.thr msg with
    | some i =>
      obtain ⟨u1, u2, u3⟩ := thr_status_upd_parts env ml.min
        { thr_id := (getIdx dummy_thr i ml.thr).thr_id,
          status := (getIdx dummy_thr i ml.thr).status,
          buckets := (getIdx dummy_thr i ml.thr).buckets ++ [recv_bucket env msg],
          dirty := true }
      have hlt2 : (thr_status_upd env ml.min
          { thr_id := (getIdx dummy_thr i ml.thr).thr_id,
            status := (getIdx dummy_thr i ml.thr).status,
            buckets := (getIdx dummy_thr i ml.thr).buckets ++ [recv_bucket env msg],
            dirty := true }).2 < UINT32_MAX + 1 := by
        rcases u2 with h | h
        · rw [h]; exact hm
        · rw [h]; exact Nat.mod_lt _ (Nat.succ_pos _)
      simpa [msg_recv_one, hfi] using hlt2
    | none =>
      obtain ⟨u1, u2, u3⟩ := thr_status_upd_parts env ml.min
        { thr_id := ml.next_thr_id, status := ThrStatus.OPEN,
          buckets := [recv_bucket env msg], dirty := true }
      have hlt2 : (thr_status_upd env ml.min
          { thr_id := ml.next_thr_id, status := ThrStatus.OPEN,
            buckets := [recv_bucket env msg], dirty := true }).2 < UINT32_MAX + 1 := by
        rcases u2 with h | h
        · rw [h]; exact hm
        · rw [h]; exact Nat.mod_lt _ (Nat.succ_pos _)
      simpa [msg_recv_one, hfi, fresh_thr] using hlt2
  | update env =>
    obtain ⟨q1, q2, q3⟩ := upd_all_parts env ml.min ml.thr
    simpa [cpdlc_msglist_update] using q2 hm
  | close id hex => simpa [cpdlc_msglist_thr_close] using hm
  | mark_seen id hex => simpa [cpdlc_msglist_thr_mark_seen] using hm
  | remove id hex => simpa [cpdlc_msglist_remove_thr] using hm

/-- All reachable engine states keep the MIN counter inside the 32-bit
range. -/
theorem reachable_min_bound (ml : Msglist) (h : Reachable ml) :
    ml.min < UINT32_MAX + 1 := by
  induction h with
  | init => exact Nat.succ_pos _
  | step _ hs ih => exact step_min_bound hs ih

/-- Concrete environment used by witnesses: transport reports SENT,
logged on, wall clock 1000. -/
def wit_env : Env :=
  { now := 1000, hours := 12, mins := 30, tok := 7,
    msg_status := fun _ => ClMsgStatus.SENT, logon := LogonStatus.COMPLETE }

/-- Concrete downlink request (DM6, response class Y). -/
def wit_dl_req : Msg :=
  { seg0 := { info := { msg_type := CPDLC_DM6_REQ_alt, is_dl := true,
                        resp := RespClass.Y, timeout := 0 }, arg0 := "" },
    segs_rest := [], min := none, mrn := none, from_cs := "", to_cs := "",
    is_logon := false }

/-- Concrete uplink UM4 AFFIRM replying to MIN 0. -/
def wit_ul_affirm : Msg :=
  { seg0 := { info := { msg_type := CPDLC_UM4_AFFIRM, is_dl := false,
                        resp := RespClass.N, timeout := 0 }, arg0 := "" },
    segs_rest := [], min := some 9, mrn := some 0, from_cs := "", to_cs := "",
    is_logon := false }

/-- Concrete reply-required uplink (type 20, response class WU,
timeout 60 s) replying to MIN 0. -/
def wit_ul_wu : Msg :=
  { seg0 := { info := { msg_type := 20, is_dl := false,
                        resp := RespClass.WU, timeout := 60 }, arg0 := "" },
    segs_rest := [], min := some 10, mrn := some 0, from_cs := "", to_cs := "",
    is_logon := false }

/-- The same reply-required uplink with no MRN (starts a thread). -/
def wit_ul_wu_nomrn : Msg := { wit_ul_wu with mrn := none, min := some 3 }

/-- Engine after sending the downlink request into a fresh thread. -/
def wit_ml1 : Msglist := (cpdlc_msglist_send wit_env msglist_init wit_dl_req none).1

/-- Engine after additionally receiving the correlated AFFIRM: one
thread in the final status ACCEPTED. -/
def wit_ml2 : Msglist := msg_recv_one wit_env wit_ml1 wit_ul_affirm

/-- Engine after receiving two uncorrelated uplinks: two threads,
created in order 0 then 1. -/
def wit_mlR2 : Msglist :=
  msg_recv_one wit_env (msg_recv_one wit_env msglist_init wit_ul_wu_nomrn) wit_ul_wu_nomrn

/-- C10: in every engine state reachable through the public operations
(send, the receive callback, update, thr_close, remove_thr), every
thread in the thread list contains at least one bucket, so the head and
tail bucket dereferences of the status recomputation never see a null
bucket (the isEmpty guard of the model is never taken). -/
theorem C10_thread_buckets_nonempty (ml : Msglist) (h : Reachable ml) :
    ∀ thr ∈ ml.thr, thr.buckets ≠ [] ∧ thr.buckets.isEmpty = false := by
  intro thr ht
  have h1 := (reachable_inv ml h).1 thr ht
  exact ⟨h1, by simpa using h1⟩

theorem C10_witness :
    (getIdx dummy_thr 0 wit_ml2.thr).buckets ≠ [] := by
  have hreach : Reachable wit_ml2 :=
    Reachable.step
      (Reachable.step Reachable.init (Step.send_new msglist_init wit_env wit_dl_req))
      (Step.recv wit_ml1 wit_env wit_ul_affirm)
  exact (C10_thread_buckets_nonempty wit_ml2 hreach (getIdx dummy_thr 0 wit_ml2.thr)
    (by decide)).1

/-- C2: threads in a final status (CLOSED, ACCEPTED, REJECTED,
TIMEDOUT, DISREGARD, FAILED, ERROR, CONN_ENDED) are frozen: every run
of the status-recomputation procedure thr_status_upd (as triggered by
send, receive or update) leaves thread and counter unchanged, and
cpdlc_msglist_thr_close on such a thread leaves the engine state
unchanged. -/
theorem C2_final_status_frozen (env : Env) (m : Nat) (thr : MsgThr)
    (ml : Msglist) (id : Nat) :
    (thr_status_is_final thr.status = true → thr_status_upd env m thr = (thr, m)) ∧
    ((∀ t ∈ ml.thr, t.thr_id = id → thr_status_is_final t.status = true) →
      cpdlc_msglist_thr_close ml id = ml) := by
  refine ⟨thr_status_upd_of_final env m thr, ?_⟩
  intro hall
  have h2 := modifyFirst_eq_self (fun t => t.thr_id == id)
    (fun t => if thr_status_is_final t.status then t
              else { t with status := ThrStatus.CLOSED })
    ml.thr (by
      intro x hx hpx
      have := hall x hx (by simpa using hpx)
      simp [this])
  simp [cpdlc_msglist_thr_close, h2]

/-- Concrete thread in the final status ACCEPTED. -/
def wit_thr_accepted : MsgThr :=
  { thr_id := 0, status := ThrStatus.ACCEPTED, buckets := [dummy_bucket],
    dirty := false }

theorem C2_witness :
    thr_status_upd wit_env 5 wit_thr_accepted = (wit_thr_accepted, 5) :=
  (C2_final_status_frozen wit_env 5 wit_thr_accepted msglist_init 0).1 (by decide)

/-- C1 counterexample: a thread in the final status ACCEPTED (reached
by sending a downlink request and receiving the correlated AFFIRM)
still receives a later message whose MRN matches the MIN of its sent
bucket: the correlation step returns that final thread, no new thread
is created, and the thread gains a bucket, contradicting the claim that
any final status forces a new thread. -/
theorem C1_counterexample :
    Reachable wit_ml2 ∧
    thr_status_is_final (getIdx dummy_thr 0 wit_ml2.thr).status = true ∧
    (msg_thr_find_by_mrn wit_ml2 wit_ul_wu).isSome = true ∧
    (msg_recv_one wit_env wit_ml2 wit_ul_wu).thr.length = wit_ml2.thr.length ∧
    (getIdx dummy_thr 0 (msg_recv_one wit_env wit_ml2 wit_ul_wu).thr).buckets.length =
      (getIdx dummy_thr 0 wit_ml2.thr).buckets.length + 1 := by
  refine ⟨?_, by decide, by decide, by decide, by decide⟩
  exact Reachable.step
    (Reachable.step Reachable.init (Step.send_new msglist_init wit_env wit_dl_req))
    (Step.recv wit_ml1 wit_env wit_ul_affirm)

/-- C1 amended: the correlation step of the receive path skips exactly
the threads whose status is CLOSED (not every final status): a thread
returned by msg_thr_find_by_mrn is never CLOSED, every CLOSED thread
survives a receive unchanged, and when no non-CLOSED thread holds a
matching bucket the message is placed in a newly created thread pushed
at the head of the list. -/
theorem C1_amended_closed_skipped (env : Env) (ml : Msglist) (msg : Msg) :
    (∀ thr, msg_thr_find_by_mrn ml msg = some thr →
      thr.status ≠ ThrStatus.CLOSED) ∧
    (∀ t ∈ ml.thr, t.status = ThrStatus.CLOSED → t ∈ (msg_recv_one env ml msg).thr) ∧
    (msg_thr_find_by_mrn ml msg = none →
      (msg_recv_one env ml msg).thr.length = ml.thr.length + 1) := by
  have hclosed : ∀ i, find_by_mrn_idx ml.thr msg = some i →
      (getIdx dummy_thr i ml.thr).status ≠ ThrStatus.CLOSED := by
    intro i hfi
    by_cases hm : msg.mrn = none
    · simp [find_by_mrn_idx, hm] at hfi
    · have hfi2 : findLastIdx (thr_matches_mrn msg) ml.thr = some i := by
        simpa [find_by_mrn_idx, hm] using hfi
      have := (findLastIdx_spec (thr_matches_mrn msg) ml.thr i dummy_thr hfi2).2
      intro hcon
      simp [thr_matches_mrn, hcon] at this
  refine ⟨?_, ?_, ?_⟩
  · intro thr hthr
    rcases hfi : find_by_mrn_idx ml.thr msg with _ | i
    · simp [msg_thr_find_by_mrn, hfi] at hthr
    · have : thr = getIdx dummy_thr i ml.thr := by
        simpa [msg_thr_find_by_mrn, hfi] using hthr.symm
      rw [this]
      exact hclosed i hfi
  · intro t ht hcl
    rcases hfi : find_by_mrn_idx ml.thr msg with _ | i
    · simp only [msg_recv_one, hfi]
      simpa using Or.inr ht
    · simp only [msg_recv_one, hfi]
      have hne : t ≠ getIdx dummy_thr i ml.thr := by
        intro hcon
        exact hclosed i hfi (by rw [← hcon]; exact hcl)
      simpa using mem_modifyIdx_const_of_ne _ dummy_thr i ml.thr t ht hne
  · intro hnone
    have hfi : find_by_mrn_idx ml.thr msg = none := by
      rcases hfi : find_by_mrn_idx ml.thr msg with _ | i
      · rfl
      · simp [msg_thr_find_by_mrn, hfi] at hnone
    simp [msg_recv_one, hfi]

theorem C1_witness :
    (msg_recv_one wit_env msglist_init wit_ul_wu_nomrn).thr.length =
      msglist_init.thr.length + 1 :=
  (C1_amended_closed_skipped wit_env msglist_init wit_ul_wu_nomrn).2.2 (by decide)

/-- C3: for a non-final thread whose last bucket is a received uplink
whose catalog response class is WU, AN or NE (and whose type is none of
the uplink reply/link-management codes that earlier branches capture),
whose status is not STANDBY, whose computed timeout is positive and
exceeded by wall-clock now minus the last bucket's timestamp, one
status recomputation appends exactly one sent DM62 ERROR bucket with
first argument TIMEDOUT, MRN equal to the last message's MIN and MIN
from the engine counter (which advances by one modulo 2^32, being a
32-bit unsigned), sets the status to TIMEDOUT, and any further
recomputation of the resulting thread is a no-op. -/
theorem C3_timeout_emits_dm62 (env : Env) (m : Nat) (thr : MsgThr)
    (bs : List MsgBucket) (lastb : MsgBucket)
    (hb : thr.buckets = bs ++ [lastb])
    (hfin : thr_status_is_final thr.status = false)
    (hsent : lastb.sent = false)
    (hdl : lastb.msg.seg0.info.is_dl = false)
    (hresp : lastb.msg.seg0.info.resp = RespClass.WU ∨
             lastb.msg.seg0.info.resp = RespClass.AN ∨
             lastb.msg.seg0.info.resp = RespClass.NE)
    (ht1 : lastb.msg.seg0.info.msg_type ≠ CPDLC_UM1_STANDBY)
    (ht4 : lastb.msg.seg0.info.msg_type ≠ CPDLC_UM4_AFFIRM)
    (ht0 : lastb.msg.seg0.info.msg_type ≠ CPDLC_UM0_UNABLE)
    (ht5 : lastb.msg.seg0.info.msg_type ≠ CPDLC_UM5_NEGATIVE)
    (ht159 : lastb.msg.seg0.info.msg_type ≠ CPDLC_UM159_ERROR_description)
    (ht3 : lastb.msg.seg0.info.msg_type ≠ CPDLC_UM3_ROGER)
    (ht160 : lastb.msg.seg0.info.msg_type ≠ CPDLC_UM160_NEXT_DATA_AUTHORITY_id)
    (ht161 : lastb.msg.seg0.info.msg_type ≠ CPDLC_UM161_END_SVC)
    (hstby : thr.status ≠ ThrStatus.STANDBY)
    (htO : thr_get_timeout thr ≠ 0)
    (hover : (env.now : Int) - (lastb.time : Int) > (thr_get_timeout thr : Int)) :
    thr_status_upd env m thr =
      ({ thr with
         buckets := thr.buckets ++
           [{ msg := { seg0 := { info := DM62_info, arg0 := "TIMEDOUT" },
                       segs_rest := [], min := some m, mrn := lastb.msg.min,
                       from_cs := "", to_cs := "", is_logon := false },
              tok := env.tok, sent := true, hours := env.hours, mins := env.mins,
              time := env.now }],
         status := ThrStatus.TIMEDOUT }, (m + 1) % (UINT32_MAX + 1)) ∧
    (∀ env2 m2, thr_status_upd env2 m2 (thr_status_upd env m thr).1 =
      ((thr_status_upd env m thr).1, m2)) := by
  have hlastthr : thr_last thr = lastb := by
    simp [thr_last, hb]
  have hne : thr.buckets.isEmpty = false := by simp [hb]
  have hC : (decide (thr.buckets.length = 1) && (thr_first thr).sent &&
      !msg_dl_req_resp (thr_first thr).msg) = false := by
    cases bs with
    | nil => simp [hb, thr_first, hsent]
    | cons b2 bs2 => simp [hb]
  have hD : ((thr_last thr).sent && msg_is_dl_req (thr_last thr).msg) = false := by
    simp [hlastthr, hsent]
  have hE : msg_is_stby (thr_last thr).msg = false := by
    simp [hlastthr, msg_is_stby, hdl, CPDLC_UM1_STANDBY] at ht1 ⊢
    exact ht1
  have hF : msg_is_accept (thr_last thr).msg = false := by
    simp [hlastthr, msg_is_accept, hdl, CPDLC_UM4_AFFIRM] at ht4 ⊢
    exact ht4
  have hG : msg_is_reject (thr_last thr).msg = false := by
    simp [hlastthr, msg_is_reject, hdl, CPDLC_UM0_UNABLE, CPDLC_UM5_NEGATIVE,
      CPDLC_UM159_ERROR_description] at ht0 ht5 ht159 ⊢
    exact ⟨⟨ht0, ht5⟩, ht159⟩
  have hH : (msg_is_rgr (thr_last thr).msg || msg_is_link_mgmt (thr_last thr).msg) = false := by
    simp [hlastthr, msg_is_rgr, msg_is_link_mgmt, hdl, CPDLC_UM3_ROGER,
      CPDLC_UM160_NEXT_DATA_AUTHORITY_id, CPDLC_UM161_END_SVC] at ht3 ht160 ht161 ⊢
    exact ⟨ht3, ht161, ht160⟩
  have hI : (msg_is_ul_req (thr_last thr).msg && !(thr.status == ThrStatus.STANDBY) &&
      !(thr_get_timeout thr == 0) &&
      decide ((env.now : Int) - ((thr_last thr).time : Int) > (thr_get_timeout thr : Int))) = true := by
    rw [hlastthr]
    have h1 : msg_is_ul_req lastb.msg = true := by
      rcases hresp with h | h | h <;> simp [msg_is_ul_req, h]
    simp [h1, hstby, htO, hover]
  have hfind : thr.buckets.reverse.find?
      (fun b => cpdlc_msg_get_dl b.msg != cpdlc_msg_get_dl (timedout_msg lastb.msg.min)) =
      some lastb := by
    rw [hb, List.reverse_append]
    simp only [List.reverse_cons, List.reverse_nil, List.nil_append, List.singleton_append]
    rw [List.find?_cons_of_pos]
    simp [cpdlc_msg_get_dl, timedout_msg, DM62_info, hdl]
  have hmain : thr_status_upd env m thr =
      ({ thr with
         buckets := thr.buckets ++
           [{ msg := { seg0 := { info := DM62_info, arg0 := "TIMEDOUT" },
                       segs_rest := [], min := some m, mrn := lastb.msg.min,
                       from_cs := "", to_cs := "", is_logon := false },
              tok := env.tok, sent := true, hours := env.hours, mins := env.mins,
              time := env.now }],
         status := ThrStatus.TIMEDOUT }, (m + 1) % (UINT32_MAX + 1)) := by
    rw [thr_status_upd]
    rw [if_neg (by simp [hne]), if_neg (by simp [hfin]), if_neg (by simp [hC]),
      if_neg (by simp [hD]), if_neg (by simp [hE]), if_neg (by simp [hF]),
      if_neg (by simp [hG]), if_neg (by simp [hH]), if_pos hI]
    rw [hlastthr]
    simp only [send_into_thr, hfind, MsgThr.setStatus]
    simp [timedout_msg]
  refine ⟨hmain, ?_⟩
  intro env2 m2
  rw [hmain]
  exact thr_status_upd_of_final env2 m2 _ (by simp [thr_status_is_final])

/-- Concrete thread holding one received reply-required uplink, wall
clock far beyond its 60 s timeout under wit_env. -/
def wit_ub : MsgBucket :=
  { msg := wit_ul_wu_nomrn, tok := 0, sent := false, hours := 1, mins := 2,
    time := 0 }

def wit_timeout_thr : MsgThr :=
  { thr_id := 0, status := ThrStatus.OPEN, buckets := [wit_ub], dirty := true }

theorem C3_witness :
    (thr_status_upd wit_env 0 wit_timeout_thr).1.status = ThrStatus.TIMEDOUT ∧
    (thr_status_upd wit_env 0 wit_timeout_thr).1.buckets.length = 2 ∧
    (thr_status_upd wit_env 0 wit_timeout_thr).2 = 1 := by
  have h := (C3_timeout_emits_dm62 wit_env 0 wit_timeout_thr [] wit_ub
    (by decide) (by decide) (by decide) (by decide) (by decide) (by decide)
    (by decide) (by decide) (by decide) (by decide) (by decide) (by decide)
    (by decide) (by decide) (by decide) (by decide)).1
  rw [h]
  exact ⟨rfl, by decide, by decide⟩

/-- find? skips a prefix on which the predicate fails everywhere. -/
theorem find?_append_of_none {α : Type} (p : α → Bool) (l1 l2 : List α)
    (h : ∀ x ∈ l1, p x = false) : (l1 ++ l2).find? p = l2.find? p := by
  induction l1 with
  | nil => rfl
  | cons x xs ih =>
    rw [List.cons_append, List.find?_cons_of_neg _ (by simp [h x (by simp)])]
    exact ih (fun y hy => h y (by simp [hy]))

/-- One send of the concrete downlink request into a fresh thread,
iterated from the freshly allocated engine: the pure-send run used to
exhibit the wraparound of the 32-bit MIN counter. -/
def iter_send : Nat → Msglist
  | 0 => msglist_init
  | n + 1 => (cpdlc_msglist_send wit_env (iter_send n) wit_dl_req none).1

/-- One send of the concrete downlink request into a fresh thread,
from an arbitrary engine state: the status recomputation takes the
OPEN branch (the transport reports SENT), so the new state is the old
one with the one-bucket thread consed on, the MIN counter advanced by
one modulo 2^32 and the thread id counter advanced by one. -/
theorem send_new_concrete (ml : Msglist) :
    (cpdlc_msglist_send wit_env ml wit_dl_req none).1 =
      { thr := { thr_id := ml.next_thr_id, status := ThrStatus.OPEN,
                 buckets := [{ msg := { wit_dl_req with min := some ml.min },
                               tok := 7, sent := true, hours := 12, mins := 30,
                               time := 1000 }],
                 dirty := false } :: ml.thr,
        min := (ml.min + 1) % (UINT32_MAX + 1),
        next_thr_id := ml.next_thr_id + 1 } := by
  have hsend : send_into_thr wit_env ml.min wit_dl_req (fresh_thr ml.next_thr_id) =
      ({ thr_id := ml.next_thr_id, status := ThrStatus.OPEN,
         buckets := [{ msg := { wit_dl_req with min := some ml.min },
                       tok := 7, sent := true, hours := 12, mins := 30,
                       time := 1000 }],
         dirty := false }, (ml.min + 1) % (UINT32_MAX + 1)) := by
    simp [send_into_thr, fresh_thr, wit_env]
  have hcomb : thr_status_upd wit_env
      (send_into_thr wit_env ml.min wit_dl_req (fresh_thr ml.next_thr_id)).2
      (send_into_thr wit_env ml.min wit_dl_req (fresh_thr ml.next_thr_id)).1 =
      ({ thr_id := ml.next_thr_id, status := ThrStatus.OPEN,
         buckets := [{ msg := { wit_dl_req with min := some ml.min },
                       tok := 7, sent := true, hours := 12, mins := 30,
                       time := 1000 }],
         dirty := false }, (ml.min + 1) % (UINT32_MAX + 1)) := by
    rw [hsend]
    rw [thr_status_upd]
    rw [if_neg (by simp), if_neg (by simp [thr_status_is_final]),
      if_neg (by simp [thr_first, msg_dl_req_resp, wit_dl_req]),
      if_pos (by simp [thr_last, msg_is_dl_req, wit_dl_req, CPDLC_DM6_REQ_alt,
        CPDLC_DM27_REQ_WX_DEVIATION_UP_TO_dir_dist_OF_ROUTE,
        CPDLC_DM49_WHEN_CAN_WE_EXPCT_spd, CPDLC_DM54_WHEN_CAN_WE_EXPECT_CRZ_CLB_TO_alt,
        CPDLC_DM70_REQ_HDG_deg, CPDLC_DM71_REQ_GND_TRK_deg]),
      if_neg (by simp [wit_env]), if_neg (by simp [wit_env])]
  simp only [cpdlc_msglist_send]
  rw [hcomb]

/-- Along the pure-send run: every state is reachable, the MIN counter
equals the number of sends so far reduced modulo 2^32, and from the
first send on a bucket stamped with MIN 0 stays in the engine. -/
theorem iter_send_props (n : Nat) :
    Reachable (iter_send n) ∧
    (iter_send n).min = n % (UINT32_MAX + 1) ∧
    (1 ≤ n → ∃ t ∈ (iter_send n).thr, ∃ b ∈ t.buckets, b.msg.min = some 0) := by
  induction n with
  | zero =>
    exact ⟨Reachable.init, by decide, fun h => absurd h (by decide)⟩
  | succ n ih =>
    obtain ⟨hr, hm, hb⟩ := ih
    have hstep : iter_send (n + 1) =
        (cpdlc_msglist_send wit_env (iter_send n) wit_dl_req none).1 := rfl
    have hconc := send_new_concrete (iter_send n)
    have hmin1 : (iter_send (n + 1)).min =
        ((iter_send n).min + 1) % (UINT32_MAX + 1) := by
      rw [hstep, hconc]
    have hthr1 : (iter_send (n + 1)).thr =
        { thr_id := (iter_send n).next_thr_id, status := ThrStatus.OPEN,
          buckets := [{ msg := { wit_dl_req with min := some (iter_send n).min },
                        tok := 7, sent := true, hours := 12, mins := 30,
                        time := 1000 }],
          dirty := false } :: (iter_send n).thr := by
      rw [hstep, hconc]
    refine ⟨?_, ?_, ?_⟩
    · rw [hstep]
      exact Reachable.step hr (Step.send_new (iter_send n) wit_env wit_dl_req)
    · rw [hmin1, hm, Nat.mod_add_mod]
    · intro _
      cases n with
      | zero => exact (by decide)
      | succ k =>
        obtain ⟨t0, ht0, b0, hb0, hb0m⟩ := hb (Nat.succ_le_succ (Nat.zero_le k))
        rw [hthr1]
        exact ⟨t0, List.mem_cons_of_mem _ ht0, b0, hb0, hb0m⟩

/-- A send of the concrete downlink request into any fresh thread when
the MIN counter is 0 stamps the appended bucket with MIN 0. -/
theorem send_fresh_min0 (tid : Nat) :
    (thr_last (send_into_thr wit_env 0 wit_dl_req (fresh_thr tid)).1).msg.min =
      some 0 := by
  simp [send_into_thr, fresh_thr, thr_last]

/-- C4: counterexample — the engine MIN counter is the 32-bit unsigned
msglist->min, whose post-increment wraps modulo 2^32.  After 2^32
sends the engine reaches a state (proved reachable by induction over
the send-only run) whose counter is back at 0 while a bucket stamped
with MIN 0 by the very first send is still present, and the next send
from that state assigns MIN 0 again: MINs of successive outgoing
messages are neither unique nor strictly increasing within the
engine. -/
theorem C4_counterexample :
    ∃ ml : Msglist, Reachable ml ∧
      (∃ t ∈ ml.thr, ∃ b ∈ t.buckets, b.msg.min = some 0) ∧
      ml.min = 0 ∧
      (thr_last (send_into_thr wit_env ml.min wit_dl_req
          (fresh_thr ml.next_thr_id)).1).msg.min = some 0 := by
  obtain ⟨hr, hm, hb⟩ := iter_send_props (UINT32_MAX + 1)
  have hm0 : (iter_send (UINT32_MAX + 1)).min = 0 := by
    rw [hm, Nat.mod_self]
  refine ⟨iter_send (UINT32_MAX + 1), hr,
    hb (Nat.succ_le_succ (Nat.zero_le _)), hm0, ?_⟩
  rw [hm0]
  exact send_fresh_min0 _

/-- C4 (amended): the send path sets the outgoing message's MRN from
the latest bucket (walking tail to head) whose direction is opposite
to the message's direction, leaves the MRN absent when the thread has
no opposite-direction bucket (and the caller left it absent), then
assigns the MIN from the engine-wide 32-bit counter, which advances by
one modulo 2^32 — so MINs repeat once the counter wraps and are unique
only between wraparounds; every reachable engine state keeps the
counter inside [0, 2^32). -/
theorem C4_amended_send_assigns_min_mrn (env : Env) (m : Nat) (msg : Msg) (thr : MsgThr) :
    (send_into_thr env m msg thr).2 = (m + 1) % (UINT32_MAX + 1) ∧
    (send_into_thr env m msg thr).1.buckets =
      thr.buckets ++ [thr_last (send_into_thr env m msg thr).1] ∧
    (thr_last (send_into_thr env m msg thr).1).msg.min = some m ∧
    (thr_last (send_into_thr env m msg thr).1).sent = true ∧
    ((∀ x ∈ thr.buckets, cpdlc_msg_get_dl x.msg = cpdlc_msg_get_dl msg) →
      msg.mrn = none → (thr_last (send_into_thr env m msg thr).1).msg.mrn = none) ∧
    (∀ bs1 bk bs2, thr.buckets = bs1 ++ bk :: bs2 →
      cpdlc_msg_get_dl bk.msg ≠ cpdlc_msg_get_dl msg →
      (∀ x ∈ bs2, cpdlc_msg_get_dl x.msg = cpdlc_msg_get_dl msg) →
      (thr_last (send_into_thr env m msg thr).1).msg.mrn = bk.msg.min) ∧
    (∀ ml : Msglist, Reachable ml → ml.min < UINT32_MAX + 1) := by
  cases hf : thr.buckets.reverse.find?
      (fun b => cpdlc_msg_get_dl b.msg != cpdlc_msg_get_dl msg) with
  | none =>
    refine ⟨by simp [send_into_thr, hf], by simp [send_into_thr, hf, thr_last],
      by simp [send_into_thr, hf, thr_last], by simp [send_into_thr, hf, thr_last],
      ?_, ?_, fun ml hr => reachable_min_bound ml hr⟩
    · intro hall hmrn
      simp [send_into_thr, hf, thr_last, hmrn]
    · intro bs1 bk bs2 hdecomp hne hsame
      exfalso
      have hmem : bk ∈ thr.buckets.reverse := by
        rw [hdecomp]
        simp
      have := List.find?_eq_none.mp hf bk hmem
      simp [cpdlc_msg_get_dl] at this
      exact hne (by simp [cpdlc_msg_get_dl, this])
  | some bk0 =>
    refine ⟨by simp [send_into_thr, hf], by simp [send_into_thr, hf, thr_last],
      by simp [send_into_thr, hf, thr_last], by simp [send_into_thr, hf, thr_last],
      ?_, ?_, fun ml hr => reachable_min_bound ml hr⟩
    · intro hall hmrn
      exfalso
      have hmem : bk0 ∈ thr.buckets := by
        have := List.mem_of_find?_eq_some hf
        simpa using this
      have hpred := List.find?_some hf
      simp [cpdlc_msg_get_dl] at hpred
      exact hpred (by simpa [cpdlc_msg_get_dl] using hall bk0 hmem)
    · intro bs1 bk bs2 hdecomp hne hsame
      have hcomp : thr.buckets.reverse.find?
          (fun b => cpdlc_msg_get_dl b.msg != cpdlc_msg_get_dl msg) = some bk := by
        rw [hdecomp, List.reverse_append, List.reverse_cons]
        rw [List.append_assoc]
        rw [find?_append_of_none _ _ _ (by
          intro x hx
          have hx2 : x ∈ bs2 := by simpa using hx
          have h2 := hsame x hx2
          simp [cpdlc_msg_get_dl] at h2
          simp [cpdlc_msg_get_dl, h2])]
        rw [List.singleton_append, List.find?_cons_of_pos]
        simp only [bne_iff_ne, ne_eq]
        exact hne
      rw [hf] at hcomp
      cases hcomp
      simp [send_into_thr, hf, thr_last]

/-- Concrete one-bucket thread holding a received uplink with MIN 9. -/
def wit_thr_ul : MsgThr :=
  { thr_id := 0, status := ThrStatus.OPEN,
    buckets := [{ msg := wit_ul_affirm, tok := 0, sent := false, hours := 0,
                  mins := 0, time := 0 }], dirty := true }

theorem C4_witness :
    (thr_last (send_into_thr wit_env 4 wit_dl_req wit_thr_ul).1).msg.mrn = some 9 ∧
    (thr_last (send_into_thr wit_env 4 wit_dl_req wit_thr_ul).1).msg.min = some 4 ∧
    (send_into_thr wit_env 4 wit_dl_req wit_thr_ul).2 = 5 := by
  have h := C4_amended_send_assigns_min_mrn wit_env 4 wit_dl_req wit_thr_ul
  refine ⟨?_, h.2.2.1, h.1.trans (by decide)⟩
  have h6 := h.2.2.2.2.2.1 []
    { msg := wit_ul_affirm, tok := 0, sent := false, hours := 0, mins := 0, time := 0 }
    [] (by decide) (by decide) (by decide)
  simpa using h6

/-- C8 counterexample: after two threads are created in order (ids 0
then 1), get_thr_ids enumerates [1, 0] — newest first, not
thread-insertion order oldest first — because find_msg_thr inserts new
threads at the list head and the enumeration walks head to tail. -/
theorem C8_counterexample :
    Reachable wit_mlR2 ∧
    (getIdx dummy_thr 1 wit_mlR2.thr).thr_id = 0 ∧
    (getIdx dummy_thr 0 wit_mlR2.thr).thr_id = 1 ∧
    cpdlc_msglist_get_thr_ids wit_mlR2 false = [1, 0] ∧
    cpdlc_msglist_get_thr_ids wit_mlR2 false ≠ [0, 1] := by
  refine ⟨?_, by decide, by decide, by decide, by decide⟩
  exact Reachable.step
    (Reachable.step Reachable.init (Step.recv msglist_init wit_env wit_ul_wu_nomrn))
    (Step.recv (msg_recv_one wit_env msglist_init wit_ul_wu_nomrn) wit_env wit_ul_wu_nomrn)

/-- C8 amended: in every reachable engine state, get_thr_ids
enumerates thread ids newest-created first (the id sequence is
strictly decreasing, since ids are assigned from a monotone counter
and new threads are inserted at the list head), and a thread id is
enumerated exactly when its thread is in the list and — when
ignore_closed is set — the thread is not both final-status and
clean. -/
theorem C8_amended_get_thr_ids (ml : Msglist) (h : Reachable ml) (b : Bool) :
    List.Pairwise (fun a b2 => a > b2) (cpdlc_msglist_get_thr_ids ml b) ∧
    (∀ id, id ∈ cpdlc_msglist_get_thr_ids ml b ↔
      ∃ t ∈ ml.thr, t.thr_id = id ∧
        (b = true → ¬(thr_status_is_final t.status = true ∧ t.dirty = false))) := by
  obtain ⟨hb, hp, hlt⟩ := reachable_inv ml h
  constructor
  · have hsub : List.Sublist
        (cpdlc_msglist_get_thr_ids ml b) (ml.thr.map (fun t => t.thr_id)) := by
      simpa [cpdlc_msglist_get_thr_ids] using
        List.Sublist.map (fun t => t.thr_id)
          (List.filter_sublist (l := ml.thr))
    exact List.Pairwise.sublist hsub hp
  · intro id
    simp only [cpdlc_msglist_get_thr_ids, List.mem_map, List.mem_filter]
    constructor
    · rintro ⟨t, ⟨ht, hflt⟩, he⟩
      refine ⟨t, ht, he, ?_⟩
      intro hbtrue hcon
      rw [hbtrue] at hflt
      simp [hcon.1, hcon.2] at hflt
    · rintro ⟨t, ht, he, hcond⟩
      refine ⟨t, ⟨ht, ?_⟩, he⟩
      cases b with
      | false => simp
      | true =>
        have := hcond rfl
        cases hd : t.dirty with
        | true => simp [hd]
        | false =>
          cases hf2 : thr_status_is_final t.status with
          | true => exact absurd ⟨hf2, hd⟩ this
          | false => simp [hd, hf2]

theorem C8_witness :
    List.Pairwise (fun a b2 => a > b2) (cpdlc_msglist_get_thr_ids wit_mlR2 true) :=
  (C8_amended_get_thr_ids wit_mlR2
    (Reachable.step
      (Reachable.step Reachable.init (Step.recv msglist_init wit_env wit_ul_wu_nomrn))
      (Step.recv (msg_recv_one wit_env msglist_init wit_ul_wu_nomrn) wit_env
        wit_ul_wu_nomrn)) true).1

/-- find? of p over a modifyFirst on p: the first p-element is mapped
through f (which preserves p). -/
theorem find?_modifyFirst_self {α : Type} (p : α → Bool) (f : α → α) (l : List α)
    (hf : ∀ x, p (f x) = p x) :
    (modifyFirst p f l).find? p = (l.find? p).map f := by
  induction l with
  | nil => rfl
  | cons x xs ih =>
    by_cases hp : p x = true
    · rw [modifyFirst, if_pos hp, List.find?_cons_of_pos _ (by rw [hf]; exact hp),
        List.find?_cons_of_pos _ hp]
      rfl
    · have hp2 : ¬p x = true := hp
      rw [modifyFirst, if_neg (by simpa using hp), List.find?_cons_of_neg _ hp2,
        List.find?_cons_of_neg _ hp2]
      exact ih

/-- find? of q is untouched by a modifyFirst on a disjoint predicate p
whose f preserves q. -/
theorem find?_modifyFirst_other {α : Type} (p q : α → Bool) (f : α → α) (l : List α)
    (hq : ∀ x, q (f x) = q x) (hpq : ∀ x, p x = true → q x = false) :
    (modifyFirst p f l).find? q = l.find? q := by
  induction l with
  | nil => rfl
  | cons x xs ih =>
    by_cases hp : p x = true
    · have hqx : q x = false := hpq x hp
      rw [modifyFirst, if_pos hp, List.find?_cons_of_neg _ (by simp [hq, hqx]),
        List.find?_cons_of_neg _ (by simp [hqx])]
    · rw [modifyFirst, if_neg (by simpa using hp)]
      by_cases hqx : q x = true
      · rw [List.find?_cons_of_pos _ hqx, List.find?_cons_of_pos _ hqx]
      · rw [List.find?_cons_of_neg _ hqx, List.find?_cons_of_neg _ hqx]
        exact ih

/-- Appending to one connection's out-buffer: effect on lookups. -/
theorem find_conn_append_self (st : DState) (cid : Nat) (buf : String) (c : DConn)
    (h : find_conn st cid = some c) :
    find_conn (conn_append_out st cid buf) cid =
      some { c with outbuf := c.outbuf ++ buf } := by
  have := find?_modifyFirst_self (fun c2 => c2.cid == cid)
    (fun c2 => { c2 with outbuf := c2.outbuf ++ buf }) st.conns (by intro x; simp)
  simp only [find_conn, conn_append_out, upd_conn] at h ⊢
  rw [this, h]
  rfl

theorem find_conn_append_other (st : DState) (cid cid2 : Nat) (buf : String)
    (h : cid2 ≠ cid) :
    find_conn (conn_append_out st cid buf) cid2 = find_conn st cid2 := by
  have := find?_modifyFirst_other (fun c2 => c2.cid == cid) (fun c2 => c2.cid == cid2)
    (fun c2 => { c2 with outbuf := c2.outbuf ++ buf }) st.conns
    (by intro x; simp)
    (by
      intro x hx
      simp only [beq_iff_eq] at hx ⊢
      rw [hx]
      simpa using fun hcon => h hcon.symm)
  simp only [find_conn, conn_append_out, upd_conn]
  exact this

/-- conn_append_out touches neither queue nor index nor the cid map. -/
theorem conn_append_out_frame (st : DState) (cid : Nat) (buf : String) :
    (conn_append_out st cid buf).queued = st.queued ∧
    (conn_append_out st cid buf).queued_bytes = st.queued_bytes ∧
    (conn_append_out st cid buf).conns_by_from = st.conns_by_from ∧
    (conn_append_out st cid buf).conns.map (fun c => c.cid) = st.conns.map (fun c => c.cid) := by
  refine ⟨rfl, rfl, rfl, ?_⟩
  simp only [conn_append_out, upd_conn]
  exact map_modifyFirst (fun c => c.cid) (fun c => c.cid == cid)
    (fun c => { c with outbuf := c.outbuf ++ buf }) st.conns (by intro x; rfl)

/-- fanout touches neither queue nor index nor the cid map. -/
theorem fanout_frame (tgts : List Nat) (st : DState) (buf : String) :
    (fanout st tgts buf).queued = st.queued ∧
    (fanout st tgts buf).queued_bytes = st.queued_bytes ∧
    (fanout st tgts buf).conns_by_from = st.conns_by_from ∧
    (fanout st tgts buf).conns.map (fun c => c.cid) = st.conns.map (fun c => c.cid) := by
  induction tgts generalizing st with
  | nil => exact ⟨rfl, rfl, rfl, rfl⟩
  | cons t ts ih =>
    obtain ⟨i1, i2, i3, i4⟩ := ih (conn_append_out st t buf)
    obtain ⟨a1, a2, a3, a4⟩ := conn_append_out_frame st t buf
    exact ⟨by simpa [fanout] using i1.trans a1, by simpa [fanout] using i2.trans a2,
      by simpa [fanout] using i3.trans a3, by simpa [fanout] using i4.trans a4⟩

/-- A connection not in the target list is untouched by fanout. -/
theorem find_conn_fanout_not_mem (tgts : List Nat) (st : DState) (buf : String)
    (cid2 : Nat) (h : cid2 ∉ tgts) :
    find_conn (fanout st tgts buf) cid2 = find_conn st cid2 := by
  induction tgts generalizing st with
  | nil => rfl
  | cons t ts ih =>
    have h1 : cid2 ≠ t := by intro hc; exact h (by simp [hc])
    have h2 : cid2 ∉ ts := by intro hc; exact h (by simp [hc])
    calc find_conn (fanout st (t :: ts) buf) cid2
        = find_conn (fanout (conn_append_out st t buf) ts buf) cid2 := by rfl
      _ = find_conn (conn_append_out st t buf) cid2 := ih _ h2
      _ = find_conn st cid2 := find_conn_append_other st t cid2 buf h1

/-- A connection listed once in the targets gets the frame appended
exactly once. -/
theorem find_conn_fanout_mem (tgts : List Nat) (st : DState) (buf : String)
    (cid2 : Nat) (c2 : DConn) (hnd : tgts.Nodup) (hm : cid2 ∈ tgts)
    (hc : find_conn st cid2 = some c2) :
    find_conn (fanout st tgts buf) cid2 =
      some { c2 with outbuf := c2.outbuf ++ buf } := by
  induction tgts generalizing st with
  | nil => simp at hm
  | cons t ts ih =>
    rcases (by simpa using hm : cid2 = t ∨ cid2 ∈ ts) with he | hmem
    · have hnot : cid2 ∉ ts := by
        rw [he]
        exact (List.nodup_cons.mp hnd).1
      calc find_conn (fanout st (t :: ts) buf) cid2
          = find_conn (fanout (conn_append_out st t buf) ts buf) cid2 := by rfl
        _ = find_conn (conn_append_out st t buf) cid2 := find_conn_fanout_not_mem _ _ _ _ hnot
        _ = some { c2 with outbuf := c2.outbuf ++ buf } := by
            rw [he]
            exact find_conn_append_self st t buf c2 (he ▸ hc)
    · have hne : cid2 ≠ t := by
        intro hcon
        exact (List.nodup_cons.mp hnd).1 (hcon ▸ hmem)
      calc find_conn (fanout st (t :: ts) buf) cid2
          = find_conn (fanout (conn_append_out st t buf) ts buf) cid2 := by rfl
        _ = some { c2 with outbuf := c2.outbuf ++ buf } := by
            exact ih _ (List.nodup_cons.mp hnd).2 hmem
              (by rw [find_conn_append_other st t cid2 buf hne]; exact hc)

/-- Processing a non-logon message on a logged-on connection with no
resolvable TO: the missing-header error path. -/
theorem conn_process_msg_noto (now : Nat) (st : DState) (cid : Nat) (m : Msg)
    (c : DConn) (hc : find_conn st cid = some c) (hl : c.logon_complete = true)
    (hnl : m.is_logon = false) (hto : m.to_cs = "") (hcto : c.cto = "") :
    conn_process_msg now st cid m =
      send_error_msg st cid m "MESSAGE MISSING TO= HEADER" := by
  simp [conn_process_msg, conn_route_msg, hc, hl, hnl, hto, hcto]

/-- Processing a non-logon message on a logged-on connection whose
resolved TO has live indexed connections: fan-out. -/
theorem conn_process_msg_deliver (now : Nat) (st : DState) (cid : Nat) (m : Msg)
    (c : DConn) (hc : find_conn st cid = some c) (hl : c.logon_complete = true)
    (hnl : m.is_logon = false)
    (hne : (if m.to_cs = "" then c.cto else m.to_cs) ≠ "")
    (hlk : lookup_from st (if m.to_cs = "" then c.cto else m.to_cs) ≠ []) :
    conn_process_msg now st cid m =
      fanout st (lookup_from st (if m.to_cs = "" then c.cto else m.to_cs))
        (cpdlc_msg_encode { m with from_cs := c.cfrom }) := by
  simp [conn_process_msg, conn_route_msg, hc, hl, hnl, hne, hlk]

/-- Processing a non-logon message on a logged-on connection whose
resolved TO has no live connection and whose encoding fits the byte
budget: the message is queued. -/
theorem conn_process_msg_queue (now : Nat) (st : DState) (cid : Nat) (m : Msg)
    (c : DConn) (hc : find_conn st cid = some c) (hl : c.logon_complete = true)
    (hnl : m.is_logon = false)
    (hne : (if m.to_cs = "" then c.cto else m.to_cs) ≠ "")
    (hlk : lookup_from st (if m.to_cs = "" then c.cto else m.to_cs) = [])
    (hfit : st.queued_bytes +
      (QMSG_OVERHEAD + (cpdlc_msg_encode { m with from_cs := c.cfrom }).length + 1) ≤
      queued_msg_max_bytes) :
    conn_process_msg now st cid m =
      { st with
        queued := st.queued ++
          [{ qfrom := c.cfrom, qto := if m.to_cs = "" then c.cto else m.to_cs,
             created := now,
             msg := cpdlc_msg_encode { m with from_cs := c.cfrom } }],
        queued_bytes := st.queued_bytes +
          (QMSG_OVERHEAD + (cpdlc_msg_encode { m with from_cs := c.cfrom }).length + 1) } := by
  have hnogt : ¬(st.queued_bytes +
      (QMSG_OVERHEAD + (cpdlc_msg_encode { m with from_cs := c.cfrom }).length + 1) >
      queued_msg_max_bytes) := Nat.not_lt.mpr hfit
  rw [show ({ m with from_cs := c.cfrom } : Msg) =
      { m with from_cs := c.cfrom, is_logon := false } from by rw [← hnl]] at hnogt
  simp [conn_process_msg, conn_route_msg, hc, hl, hnl, hne, hlk, store_msg, hnogt]

/-- Processing a non-logon message on a logged-on connection whose
resolved TO has no live connection and whose encoding overflows the
byte budget: the too-many-queued error path. -/
theorem conn_process_msg_overflow (now : Nat) (st : DState) (cid : Nat) (m : Msg)
    (c : DConn) (hc : find_conn st cid = some c) (hl : c.logon_complete = true)
    (hnl : m.is_logon = false)
    (hne : (if m.to_cs = "" then c.cto else m.to_cs) ≠ "")
    (hlk : lookup_from st (if m.to_cs = "" then c.cto else m.to_cs) = [])
    (hover : queued_msg_max_bytes < st.queued_bytes +
      (QMSG_OVERHEAD + (cpdlc_msg_encode { m with from_cs := c.cfrom }).length + 1)) :
    conn_process_msg now st cid m =
      send_error_msg st cid m "TOO MANY QUEUED MESSAGES" := by
  rw [show ({ m with from_cs := c.cfrom } : Msg) =
      { m with from_cs := c.cfrom, is_logon := false } from by rw [← hnl]] at hover
  simp [conn_process_msg, conn_route_msg, hc, hl, hnl, hne, hlk, store_msg, hover]

/-- C5: for a decoded non-logon message processed from a logged-on
connection: an empty TO falls back to the connection's bound
to-callsign; if both are empty the MESSAGE MISSING TO= HEADER error is
appended to the originating connection and nothing is routed or
queued; otherwise FROM is overwritten with the connection's bound
from-callsign and the message is delivered by appending its encoding
to the out-buffer of every connection indexed under TO when at least
one exists, else it is enqueued under (from, to) with its byte cost
added, and when that would exceed the byte budget the TOO MANY QUEUED
MESSAGES error is sent back and the message is dropped. -/
theorem C5_forwarding (now : Nat) (st : DState) (cid : Nat) (m : Msg) (c : DConn)
    (hc : find_conn st cid = some c)
    (hl : c.logon_complete = true)
    (hnl : m.is_logon = false) :
    (m.to_cs = "" → c.cto = "" →
      (conn_process_msg now st cid m).queued = st.queued ∧
      (conn_process_msg now st cid m).queued_bytes = st.queued_bytes ∧
      find_conn (conn_process_msg now st cid m) cid =
        some { c with outbuf := c.outbuf ++
          cpdlc_msg_encode (error_reply m "MESSAGE MISSING TO= HEADER") }) ∧
    (∀ dst, dst = (if m.to_cs = "" then c.cto else m.to_cs) → dst ≠ "" →
      (lookup_from st dst ≠ [] → (lookup_from st dst).Nodup →
        (conn_process_msg now st cid m).queued = st.queued ∧
        (conn_process_msg now st cid m).queued_bytes = st.queued_bytes ∧
        (∀ cid2 c2, cid2 ∈ lookup_from st dst → find_conn st cid2 = some c2 →
          find_conn (conn_process_msg now st cid m) cid2 =
            some { c2 with outbuf := c2.outbuf ++
              cpdlc_msg_encode { m with from_cs := c.cfrom } }) ∧
        (∀ cid2, cid2 ∉ lookup_from st dst →
          find_conn (conn_process_msg now st cid m) cid2 = find_conn st cid2)) ∧
      (lookup_from st dst = [] →
        st.queued_bytes +
          (QMSG_OVERHEAD + (cpdlc_msg_encode { m with from_cs := c.cfrom }).length + 1) ≤
          queued_msg_max_bytes →
        (conn_process_msg now st cid m).conns = st.conns ∧
        (conn_process_msg now st cid m).queued = st.queued ++
          [{ qfrom := c.cfrom, qto := dst, created := now,
             msg := cpdlc_msg_encode { m with from_cs := c.cfrom } }] ∧
        (conn_process_msg now st cid m).queued_bytes = st.queued_bytes +
          (QMSG_OVERHEAD + (cpdlc_msg_encode { m with from_cs := c.cfrom }).length + 1)) ∧
      (lookup_from st dst = [] →
        queued_msg_max_bytes < st.queued_bytes +
          (QMSG_OVERHEAD + (cpdlc_msg_encode { m with from_cs := c.cfrom }).length + 1) →
        (conn_process_msg now st cid m).queued = st.queued ∧
        (conn_process_msg now st cid m).queued_bytes = st.queued_bytes ∧
        find_conn (conn_process_msg now st cid m) cid =
          some { c with outbuf := c.outbuf ++
            cpdlc_msg_encode (error_reply m "TOO MANY QUEUED MESSAGES") })) := by
  constructor
  · intro hto hcto
    rw [conn_process_msg_noto now st cid m c hc hl hnl hto hcto]
    exact ⟨rfl, rfl, find_conn_append_self st cid _ c hc⟩
  · intro dst hd hne
    subst hd
    refine ⟨?_, ?_, ?_⟩
    · intro hlk hnd
      rw [conn_process_msg_deliver now st cid m c hc hl hnl hne hlk]
      obtain ⟨f1, f2, f3, f4⟩ := fanout_frame
        (lookup_from st (if m.to_cs = "" then c.cto else m.to_cs)) st
        (cpdlc_msg_encode { m with from_cs := c.cfrom })
      refine ⟨f1, f2, ?_, ?_⟩
      · intro cid2 c2 hmem hc2
        exact find_conn_fanout_mem _ st _ cid2 c2 hnd hmem hc2
      · intro cid2 hnm
        exact find_conn_fanout_not_mem _ st _ cid2 hnm
    · intro hlk hfit
      rw [conn_process_msg_queue now st cid m c hc hl hnl hne hlk hfit]
      exact ⟨rfl, rfl, rfl⟩
    · intro hlk hover
      rw [conn_process_msg_overflow now st cid m c hc hl hnl hne hlk hover]
      exact ⟨rfl, rfl, find_conn_append_self st cid _ c hc⟩

/-- find_conn after upd_conn on the same id (f preserves the id). -/
theorem find_conn_upd_self (st : DState) (cid : Nat) (f : DConn → DConn)
    (hf : ∀ x, (f x).cid = x.cid) (c : DConn) (h : find_conn st cid = some c) :
    find_conn (upd_conn st cid f) cid = some (f c) := by
  have := find?_modifyFirst_self (fun c2 => c2.cid == cid) f st.conns
    (by intro x; simp [hf])
  simp only [find_conn, upd_conn] at h ⊢
  rw [this, h]
  rfl

/-- A trivial single-segment message body used by daemon witnesses. -/
def wit_seg : Seg :=
  { info := { msg_type := 0, is_dl := true, resp := RespClass.N, timeout := 0 },
    arg0 := "" }

/-- A logon message with an empty FROM= header. -/
def wit_logon_nofrom : Msg :=
  { seg0 := wit_seg, segs_rest := [], min := none, mrn := none,
    from_cs := "", to_cs := "ATC", is_logon := true }

/-- The same message without the logon flag. -/
def wit_nonlogon : Msg := { wit_logon_nofrom with is_logon := false }

/-- Daemon state after accepting connection 0. -/
def wit_st_acc : DState :=
  { dstate_init with conns := dstate_init.conns ++ [fresh_conn 0] }

/-- Daemon state after connection 0 completes its TLS handshake. -/
def wit_st_tls : DState :=
  upd_conn wit_st_acc 0 (fun c => { c with tls_complete := true })

/-- Daemon state after connection 0 sends a logon with empty FROM. -/
def wit_st_bug : DState := conn_process_msg 0 wit_st_tls 0 wit_logon_nofrom

/-- C6 (code bug): process_logon_msg sets logon_complete := true and
copies the callsigns BEFORE validating FROM non-empty, so a reachable
logon with empty FROM leaves a connection flagged logon_complete with
an empty bound callsign and no entry in conns_by_from — falsifying the
claimed invariant that the index holds exactly the logon_complete
connections, each with a non-empty from (and contradicting the
ASSERTs at cpdlcd.c:516 and cpdlcd.c:690, which assume it). -/
theorem C6_index_invariant_violated :
    DReachable wit_st_bug ∧
    wit_st_bug.conns.map (fun c => (c.logon_complete, c.cfrom)) = [(true, "")] ∧
    wit_st_bug.conns_by_from = [] := by
  refine ⟨?_, by decide, by decide⟩
  have h1 : DStep dstate_init wit_st_acc := DStep.accept dstate_init 0 (by simp [dstate_init])
  have h2 : DStep wit_st_acc wit_st_tls := DStep.tls_done wit_st_acc 0
  have h3 : DStep wit_st_tls wit_st_bug :=
    DStep.process wit_st_tls 0 wit_logon_nofrom 0
      ⟨{ cid := 0, cfrom := "", cto := "", logon_complete := false,
         tls_complete := true, outbuf := "" }, by decide, rfl⟩
  exact DReachable.step (DReachable.step (DReachable.step DReachable.init h1) h2) h3

/-- C7 counterexample: a handshaken, not-logged-on connection that
sends a non-logon message gets the LOGON REQUIRED error reply but is
NOT closed: it is still in the connection set afterwards. -/
theorem C7_counterexample :
    DReachable wit_st_tls ∧
    (conn_process_msg 0 wit_st_tls 0 wit_nonlogon).conns.map (fun c2 => c2.cid) = [0] ∧
    find_conn (conn_process_msg 0 wit_st_tls 0 wit_nonlogon) 0 =
      some { cid := 0, cfrom := "", cto := "", logon_complete := false,
             tls_complete := true,
             outbuf := cpdlc_msg_encode (error_reply wit_nonlogon "LOGON REQUIRED") } := by
  refine ⟨?_, by decide, by decide⟩
  have h1 : DStep dstate_init wit_st_acc := DStep.accept dstate_init 0 (by simp [dstate_init])
  have h2 : DStep wit_st_acc wit_st_tls := DStep.tls_done wit_st_acc 0
  exact DReachable.step (DReachable.step DReachable.init h1) h2

/-- C7 amended: on a connection past the TLS handshake but not logged
on, a non-logon message draws the LOGON REQUIRED error reply and the
connection is NOT closed (it stays in the connection set and
processing of that message merely stops); a logon message with empty
FROM draws LOGON REQUIRES FROM= HEADER, adds no entry to the callsign
index, and the connection also continues. -/
theorem C7_amended_prelogon (now : Nat) (st : DState) (cid : Nat) (m : Msg)
    (c : DConn) (hc : find_conn st cid = some c) (hl : c.logon_complete = false) :
    (m.is_logon = false →
      (conn_process_msg now st cid m).conns.map (fun c2 => c2.cid) =
        st.conns.map (fun c2 => c2.cid) ∧
      (conn_process_msg now st cid m).queued = st.queued ∧
      (conn_process_msg now st cid m).conns_by_from = st.conns_by_from ∧
      find_conn (conn_process_msg now st cid m) cid =
        some { c with outbuf := c.outbuf ++
          cpdlc_msg_encode (error_reply m "LOGON REQUIRED") }) ∧
    (m.is_logon = true → m.from_cs = "" →
      (conn_process_msg now st cid m).conns_by_from = st.conns_by_from ∧
      (conn_process_msg now st cid m).conns.map (fun c2 => c2.cid) =
        st.conns.map (fun c2 => c2.cid) ∧
      (conn_process_msg now st cid m).queued = st.queued ∧
      find_conn (conn_process_msg now st cid m) cid =
        some { c with logon_complete := true, cto := m.to_cs, cfrom := "", outbuf := c.outbuf ++ cpdlc_msg_encode (error_reply m "LOGON REQUIRES FROM= HEADER") }) := by
  constructor
  · intro hnl
    have hred : conn_process_msg now st cid m =
        send_error_msg st cid m "LOGON REQUIRED" := by
      simp [conn_process_msg, conn_route_msg, hc, hl, hnl]
    rw [hred]
    obtain ⟨a1, a2, a3, a4⟩ := conn_append_out_frame st cid
      (cpdlc_msg_encode (error_reply m "LOGON REQUIRED"))
    exact ⟨a4, a1, a3, find_conn_append_self st cid _ c hc⟩
  · intro hlg hfrom
    have hred : conn_process_msg now st cid m =
        send_error_msg
          (upd_conn st cid (fun c2 =>
            { c2 with logon_complete := true, cto := m.to_cs, cfrom := "" }))
          cid m "LOGON REQUIRES FROM= HEADER" := by
      simp [conn_process_msg, conn_route_msg, hc, hl, hlg, process_logon_msg, hfrom]
    rw [hred]
    have hup : find_conn (upd_conn st cid (fun c2 =>
        { c2 with logon_complete := true, cto := m.to_cs, cfrom := "" })) cid =
        some { c with logon_complete := true, cto := m.to_cs, cfrom := "" } :=
      find_conn_upd_self st cid _ (by intro x; rfl) c hc
    obtain ⟨a1, a2, a3, a4⟩ := conn_append_out_frame
      (upd_conn st cid (fun c2 =>
        { c2 with logon_complete := true, cto := m.to_cs, cfrom := "" }))
      cid (cpdlc_msg_encode (error_reply m "LOGON REQUIRES FROM= HEADER"))
    refine ⟨a3.trans rfl, ?_, a1.trans rfl, ?_⟩
    · exact a4.trans (by
        simp only [upd_conn]
        exact map_modifyFirst (fun c2 => c2.cid) (fun c2 => c2.cid == cid)
          (fun c2 => { c2 with logon_complete := true, cto := m.to_cs, cfrom := "" })
          st.conns (by intro x; rfl))
    · exact find_conn_append_self
        (upd_conn st cid (fun c2 =>
          { c2 with logon_complete := true, cto := m.to_cs, cfrom := "" })) cid
        (cpdlc_msg_encode (error_reply m "LOGON REQUIRES FROM= HEADER")) _ hup

theorem C7_witness :
    (conn_process_msg 0 wit_st_tls 0 wit_nonlogon).conns.map (fun c2 => c2.cid) =
      wit_st_tls.conns.map (fun c2 => c2.cid) :=
  ((C7_amended_prelogon 0 wit_st_tls 0 wit_nonlogon
    { cid := 0, cfrom := "", cto := "", logon_complete := false,
      tls_complete := true, outbuf := "" }
    (by decide) rfl).1 rfl).1

/-- Concrete routing scenario: connection 0 is logged on as B with
bound peer ATC; connection 1 is logged on as ATC. -/
def wit_src_conn : DConn :=
  { cid := 0, cfrom := "B", cto := "ATC", logon_complete := true,
    tls_complete := true, outbuf := "" }

def wit_dst_conn : DConn :=
  { cid := 1, cfrom := "ATC", cto := "", logon_complete := true,
    tls_complete := true, outbuf := "" }

def wit_dstate : DState :=
  { conns := [wit_src_conn, wit_dst_conn],
    conns_by_from := [("B", 0), ("ATC", 1)], queued := [], queued_bytes := 0 }

/-- Concrete non-logon message with an empty TO header. -/
def wit_fwd_msg : Msg :=
  { seg0 := wit_seg, segs_rest := [], min := some 1, mrn := none,
    from_cs := "X", to_cs := "", is_logon := false }

theorem C5_witness :
    find_conn (conn_process_msg 0 wit_dstate 0 wit_fwd_msg) 1 =
      some { wit_dst_conn with outbuf := wit_dst_conn.outbuf ++ cpdlc_msg_encode { wit_fwd_msg with from_cs := wit_src_conn.cfrom } } :=
  ((((C5_forwarding 0 wit_dstate 0 wit_fwd_msg wit_src_conn (by decide) rfl
      rfl).2 "ATC" (by decide) (by decide)).1 (by decide) (by decide)).2.2.1 1
      wit_dst_conn (by decide) (by decide))

/-- conn_remove_from leaves the queue untouched. -/
theorem conn_remove_from_queue_frame (st : DState) (cid : Nat) :
    (conn_remove_from st cid).queued = st.queued ∧
    (conn_remove_from st cid).queued_bytes = st.queued_bytes := by
  cases hfc : find_conn st cid with
  | none => simp [conn_remove_from, hfc]
  | some c => simp [conn_remove_from, hfc, upd_conn]


/-- process_logon_msg leaves the queue untouched. -/
theorem process_logon_msg_queue_frame (st : DState) (cid : Nat) (m : Msg) :
    (process_logon_msg st cid m).1.queued = st.queued ∧
    (process_logon_msg st cid m).1.queued_bytes = st.queued_bytes := by
  obtain ⟨r1, r2⟩ := conn_remove_from_queue_frame st cid
  cases hfc : find_conn st cid with
  | none =>
    by_cases hfr : m.from_cs = "" <;>
      simp [process_logon_msg, hfc, hfr, send_error_msg, conn_append_out, upd_conn]
  | some c =>
    by_cases hlc : c.logon_complete = true <;>
      by_cases hfr : m.from_cs = "" <;>
        simp [process_logon_msg, hfc, hlc, hfr, send_error_msg, conn_append_out,
          upd_conn, r1, r2]

/-- store_msg success: exactly one entry is appended and exactly its
qmsg_bytes are added; the connections are untouched. -/
theorem store_msg_some_spec (now : Nat) (st : DState) (m : Msg) (dst : String)
    (st2 : DState) (h : store_msg now st m dst = some st2) :
    ∃ q : QMsg, st2.queued = st.queued ++ [q] ∧
      st2.queued_bytes = st.queued_bytes + qmsg_bytes q ∧
      st2.conns = st.conns := by
  by_cases hc : st.queued_bytes + (QMSG_OVERHEAD + (cpdlc_msg_encode m).length + 1) >
      queued_msg_max_bytes
  · simp [store_msg, hc] at h
  · simp [store_msg, hc] at h
    refine ⟨{ qfrom := m.from_cs, qto := dst, created := now,
              msg := cpdlc_msg_encode m }, ?_, ?_, ?_⟩ <;>
      rw [← h] <;> try simp [qmsg_bytes]

/-- The forwarding phase either leaves the queue untouched or appends
exactly one entry and exactly its qmsg_bytes. -/
theorem conn_route_msg_queued_shape (now : Nat) (st : DState) (cid : Nat) (m : Msg) :
    ((conn_route_msg now st cid m).queued = st.queued ∧
     (conn_route_msg now st cid m).queued_bytes = st.queued_bytes) ∨
    (∃ q, (conn_route_msg now st cid m).queued = st.queued ++ [q] ∧
      (conn_route_msg now st cid m).queued_bytes = st.queued_bytes + qmsg_bytes q) := by
  cases hfc : find_conn st cid with
  | none =>
    left
    constructor <;> simp [conn_route_msg, hfc]
  | some c =>
    by_cases hdst : (if m.to_cs = "" then c.cto else m.to_cs) = ""
    · left
      have hred : conn_route_msg now st cid m =
          send_error_msg st cid m "MESSAGE MISSING TO= HEADER" := by
        simp [conn_route_msg, hfc, hdst]
      rw [hred]
      exact ⟨rfl, rfl⟩
    · by_cases hlk : lookup_from st (if m.to_cs = "" then c.cto else m.to_cs) = []
      · cases hst : store_msg now st { m with from_cs := c.cfrom }
            (if m.to_cs = "" then c.cto else m.to_cs) with
        | some st2 =>
          right
          have hred : conn_route_msg now st cid m = st2 := by
            simp [conn_route_msg, hfc, hdst, hlk, hst]
          obtain ⟨q, h1, h2, h3⟩ := store_msg_some_spec now st _ _ st2 hst
          exact ⟨q, by rw [hred, h1], by rw [hred, h2]⟩
        | none =>
          left
          have hred : conn_route_msg now st cid m =
              send_error_msg st cid m "TOO MANY QUEUED MESSAGES" := by
            simp [conn_route_msg, hfc, hdst, hlk, hst]
          rw [hred]
          exact ⟨rfl, rfl⟩
      · left
        have hred : conn_route_msg now st cid m =
            fanout st (lookup_from st (if m.to_cs = "" then c.cto else m.to_cs))
              (cpdlc_msg_encode { m with from_cs := c.cfrom }) := by
          simp [conn_route_msg, hfc, hdst, hlk]
        rw [hred]
        obtain ⟨f1, f2, f3, f4⟩ := fanout_frame
          (lookup_from st (if m.to_cs = "" then c.cto else m.to_cs)) st
          (cpdlc_msg_encode { m with from_cs := c.cfrom })
        exact ⟨f1, f2⟩

/-- Per-message processing either leaves the queue untouched or
appends exactly one entry and exactly its qmsg_bytes. -/
theorem conn_process_msg_queued_shape (now : Nat) (st : DState) (cid : Nat) (m : Msg) :
    ((conn_process_msg now st cid m).queued = st.queued ∧
     (conn_process_msg now st cid m).queued_bytes = st.queued_bytes) ∨
    (∃ q, (conn_process_msg now st cid m).queued = st.queued ++ [q] ∧
      (conn_process_msg now st cid m).queued_bytes = st.queued_bytes + qmsg_bytes q) := by
  cases hfc : find_conn st cid with
  | none =>
    left
    constructor <;> simp [conn_process_msg, hfc]
  | some c0 =>
    by_cases hg : (!c0.logon_complete && !m.is_logon) = true
    · left
      have hred : conn_process_msg now st cid m =
          send_error_msg st cid m "LOGON REQUIRED" := by
        simp only [conn_process_msg, hfc]
        rw [if_pos hg]
      rw [hred]
      exact ⟨rfl, rfl⟩
    · by_cases hlg : m.is_logon = true
      · obtain ⟨l1, l2⟩ := process_logon_msg_queue_frame st cid m
        by_cases hp2 : (process_logon_msg st cid m).2 = true
        · have hred : conn_process_msg now st cid m =
              conn_route_msg now (process_logon_msg st cid m).1 cid m := by
            simp [conn_process_msg, hfc, hg, hlg, hp2]
          rcases conn_route_msg_queued_shape now (process_logon_msg st cid m).1 cid m with
            ⟨s1, s2⟩ | ⟨q, s1, s2⟩
          · left
            rw [hred]
            exact ⟨s1.trans l1, s2.trans l2⟩
          · right
            exact ⟨q, by rw [hred, s1, l1], by rw [hred, s2, l2]⟩
        · left
          have hp2f : (process_logon_msg st cid m).2 = false := by simpa using hp2
          have hred : conn_process_msg now st cid m = (process_logon_msg st cid m).1 := by
            simp [conn_process_msg, hfc, hg, hlg, hp2f]
          rw [hred]
          exact ⟨l1, l2⟩
      · have hnl : m.is_logon = false := by simpa using hlg
        have hko : c0.logon_complete = true := by
          by_contra hcon
          exact hg (by simp [hnl, (by simpa using hcon : c0.logon_complete = false)])
        have hred : conn_process_msg now st cid m = conn_route_msg now st cid m := by
          simp [conn_process_msg, hfc, hnl, hko]
        rw [hred]
        exact conn_route_msg_queued_shape now st cid m

/-- close_conn leaves the queue untouched. -/
theorem close_conn_queue_frame (st : DState) (cid : Nat) :
    (close_conn st cid).queued = st.queued ∧
    (close_conn st cid).queued_bytes = st.queued_bytes := by
  obtain ⟨r1, r2⟩ := conn_remove_from_queue_frame st cid
  cases hfc : find_conn st cid with
  | none => simp [close_conn, hfc]
  | some c =>
    by_cases hlc : c.logon_complete = true <;> simp [close_conn, hfc, hlc, r1, r2]

/-- Queue-byte accounting through one sweep: if the byte counter held
the pending entries plus some slack, afterwards it holds the kept
entries plus the same slack. -/
theorem sweep_go_qb (now : Nat) (pending : List QMsg) (st : DState) (extra : Nat)
    (h : st.queued_bytes = (pending.map qmsg_bytes).sum + extra) :
    (sweep_go now st pending).1.queued_bytes =
      ((sweep_go now st pending).2.map qmsg_bytes).sum + extra := by
  induction pending generalizing st extra with
  | nil => simpa [sweep_go] using h
  | cons q rest ih =>
    have hsplit : st.queued_bytes = qmsg_bytes q + ((rest.map qmsg_bytes).sum + extra) := by
      rw [h]
      simp [Nat.add_assoc]
    by_cases hie : (lookup_from st q.qto).isEmpty = true
    · have hie2 : (!(lookup_from st q.qto).isEmpty) = false := by simp [hie]
      by_cases hov : ((now : Int) - (q.created : Int) > (QUEUED_MSG_TIMEOUT : Int))
      · have hred : sweep_go now st (q :: rest) =
            sweep_go now (dequeue_bytes st q) rest := by
          simp [sweep_go, hie2, hov]
        rw [hred]
        exact ih _ _ (by simp [dequeue_bytes, hsplit])
      · have hred : sweep_go now st (q :: rest) =
            ((sweep_go now st rest).1, q :: (sweep_go now st rest).2) := by
          simp [sweep_go, hie2, hov]
        rw [hred]
        have hx := ih st (qmsg_bytes q + extra) (by rw [hsplit]; omega)
        simp only [List.map_cons, List.sum_cons]
        omega
    · have hie2 : (!(lookup_from st q.qto).isEmpty) = true := by
        simp only [Bool.not_eq_true] at hie
        simp [hie]
      have hred : sweep_go now st (q :: rest) =
          sweep_go now (dequeue_bytes (fanout st (lookup_from st q.qto) q.msg) q) rest := by
        simp [sweep_go, hie2]
      rw [hred]
      obtain ⟨f1, f2, f3, f4⟩ := fanout_frame (lookup_from st q.qto) st q.msg
      exact ih _ _ (by simp [dequeue_bytes, f2, hsplit])

/-- The queue-byte invariant: the counter equals the summed byte cost
of the queued entries. -/
def qb_inv (st : DState) : Prop :=
  st.queued_bytes = (st.queued.map qmsg_bytes).sum

/-- Every daemon action preserves the queue-byte invariant. -/
theorem dstep_qb_inv {st st2 : DState} (hs : DStep st st2) (hi : qb_inv st) :
    qb_inv st2 := by
  cases hs with
  | accept cid h => simpa [qb_inv] using hi
  | tls_done cid => exact hi
  | process cid m now h =>
    rcases conn_process_msg_queued_shape now st cid m with ⟨s1, s2⟩ | ⟨q, s1, s2⟩
    · unfold qb_inv at hi ⊢
      rw [s1, s2]
      exact hi
    · unfold qb_inv at hi ⊢
      rw [s1, s2, hi]
      simp
  | close cid =>
    obtain ⟨f1, f2⟩ := close_conn_queue_frame st cid
    unfold qb_inv at hi ⊢
    rw [f1, f2]
    exact hi
  | sweep now =>
    unfold qb_inv at hi ⊢
    have := sweep_go_qb now st.queued st 0 (by simpa using hi)
    simpa [handle_queued_msgs] using this

/-- C9: in every reachable daemon state the queued-message byte
counter equals the sum over the queued entries of the encoded frame
length plus the fixed per-entry overhead (each enqueue adds exactly
what the matching dequeue later subtracts), and the counter is zero
exactly when the queue is empty. -/
theorem C9_queue_accounting (st : DState) (h : DReachable st) :
    st.queued_bytes = (st.queued.map qmsg_bytes).sum ∧
    (st.queued_bytes = 0 ↔ st.queued = []) := by
  have hinv : qb_inv st := by
    induction h with
    | init => rfl
    | step _ hs ih => exact dstep_qb_inv hs ih
  refine ⟨hinv, ?_, ?_⟩
  · intro h0
    cases hq : st.queued with
    | nil => rfl
    | cons a l =>
      exfalso
      unfold qb_inv at hinv
      rw [hq] at hinv
      rw [hinv] at h0
      simp [qmsg_bytes, QMSG_OVERHEAD] at h0
  · intro he
    unfold qb_inv at hinv
    simp [hinv, he]

/-- A logon naming FROM=B TO=ATC on a handshaken connection: the logon
message itself is forwarded to ATC, and with no ATC connection it is
queued. -/
def wit_logon_b : Msg :=
  { seg0 := wit_seg, segs_rest := [], min := none, mrn := none,
    from_cs := "B", to_cs := "ATC", is_logon := true }

def wit_st_logon : DState := conn_process_msg 0 wit_st_tls 0 wit_logon_b

theorem C9_witness :
    wit_st_logon.queued_bytes = (wit_st_logon.queued.map qmsg_bytes).sum ∧
    (wit_st_logon.queued_bytes = 0 ↔ wit_st_logon.queued = []) := by
  have h1 : DStep dstate_init wit_st_acc := DStep.accept dstate_init 0 (by simp [dstate_init])
  have h2 : DStep wit_st_acc wit_st_tls := DStep.tls_done wit_st_acc 0
  have h3 : DStep wit_st_tls wit_st_logon :=
    DStep.process wit_st_tls 0 wit_logon_b 0
      ⟨{ cid := 0, cfrom := "", cto := "", logon_complete := false,
         tls_complete := true, outbuf := "" }, by decide, rfl⟩
  exact C9_queue_accounting wit_st_logon
    (DReachable.step (DReachable.step (DReachable.step DReachable.init h1) h2) h3)
